import Mathlib

/-!
Verification development for the BiesSimulator core: a shallow embedding of
the simulation engine (payoff resolution, spatial grid, encounter memory,
game loop, strategy spawning, energy lifecycle) together with theorems that
settle the specification claims against the embedded code.

Numbers are modelled as rationals; machine floats in the source are assumed
exact at the inputs considered.
-/

namespace BiesSim

/-! ## Numeric helpers -/

/-- Clamp, as in the source pattern `Math.max(lo, Math.min(hi, x))`. -/
def clampQ (lo hi x : ℚ) : ℚ := max lo (min hi x)

/-- Rational stand-in for `Math.sqrt`: exact on perfect-square rationals
(every input at which this development evaluates it); like `Math.sqrt` it is
nonnegative, which is the only general fact the theorems use. -/
def sqrtQ (q : ℚ) : ℚ :=
  if q ≤ 0 then 0 else (Nat.sqrt q.num.toNat : ℚ) / (Nat.sqrt q.den : ℚ)

theorem sqrtQ_nonneg (q : ℚ) : 0 ≤ sqrtQ q := by
  unfold sqrtQ
  split
  · exact le_refl 0
  · positivity

theorem sqrtQ_of_sq (q : ℚ) (a b : ℕ) (h1 : ¬ q ≤ 0) (h2 : q.num = (a : ℤ) * (a : ℤ))
    (h3 : q.den = b * b) : sqrtQ q = (a : ℚ) / (b : ℚ) := by
  unfold sqrtQ
  have h4 : ((a : ℤ) * (a : ℤ)).toNat = a * a := by
    rw [← Nat.cast_mul, Int.toNat_natCast]
  rw [if_neg h1, h2, h3, h4, Nat.sqrt_eq, Nat.sqrt_eq]

/-- 2D vector, as in `models/Vector2.ts`. -/
structure Vec2 where
  x : ℚ
  y : ℚ
deriving DecidableEq

/-- Squared magnitude, `Vector2.magSq`. -/
def Vec2.magSq (v : Vec2) : ℚ := v.x * v.x + v.y * v.y

/-- Squared distance, `Vector2.distSq`. -/
def Vec2.distSq (a b : Vec2) : ℚ :=
  (a.x - b.x) * (a.x - b.x) + (a.y - b.y) * (a.y - b.y)

/-- Magnitude, `Vector2.mag` (`Math.sqrt(x*x + y*y)` via `sqrtQ`). -/
def Vec2.mag (v : Vec2) : ℚ := sqrtQ v.magSq

/-- Normalization, `Vector2.normalize`: divide by the magnitude when it is
positive, otherwise leave the vector unchanged. -/
def Vec2.normalize (v : Vec2) : Vec2 :=
  let m := v.mag
  if 0 < m then ⟨v.x / m, v.y / m⟩ else v

def Vec2.add (a b : Vec2) : Vec2 := ⟨a.x + b.x, a.y + b.y⟩

def Vec2.scale (v : Vec2) (n : ℚ) : Vec2 := ⟨v.x * n, v.y * n⟩

/-! ## Configuration (`config/globalConfig.ts`) -/

namespace CONFIG

def MAX_ENERGY : ℚ := 200
def STARTING_ENERGY : ℚ := 100
def BASE_TICK_COST : ℚ := 1/20
def MOVEMENT_COST_FACTOR : ℚ := 1/100
def FIGHT_COST : ℚ := 10
def REPRODUCTION_COST : ℚ := 50
def KNOCKBACK_FORCE : ℚ := 300
def INTERACTION_COOLDOWN : ℕ := 60
def DEFAULT_MEMORY_SIZE : ℕ := 5

end CONFIG

/-! ## Actions and the payoff matrix -/

/-- `ActionType` from `config/globalConfig.ts`. -/
inductive Action
  | FIGHT
  | SHARE
  | FLEE
  | IGNORE
deriving DecidableEq

/-- The `CONFIG.PAYOFF` lookup: `some` exactly on the six canonical keys
present in the object literal, `none` otherwise. -/
def PAYOFF : Action → Action → Option (ℚ × ℚ)
  | .FIGHT, .FIGHT => some (-20, -20)
  | .FIGHT, .SHARE => some (30, -10)
  | .FIGHT, .FLEE => some (10, 0)
  | .SHARE, .SHARE => some (15, 15)
  | .SHARE, .FLEE => some (5, 0)
  | .FLEE, .FLEE => some (0, 0)
  | _, _ => none

/-- `InteractionSystem.calculatePayoff`: IGNORE short-circuits to (0,0);
otherwise the forward key is tried, then the reverse key with the outcome
pair swapped, then a (0,0) default. -/
def calculatePayoff (action1 action2 : Action) : ℚ × ℚ :=
  if action1 = .IGNORE ∨ action2 = .IGNORE then (0, 0)
  else
    match PAYOFF action1 action2 with
    | some p => p
    | none =>
      match PAYOFF action2 action1 with
      | some p => (p.2, p.1)
      | none => (0, 0)

/-! ## Agents and interaction resolution (`systems/InteractionSystem.ts`) -/

/-- Association-list lookup (JS `Map.get`). -/
def lookupA {κ ν : Type} [DecidableEq κ] : List (κ × ν) → κ → Option ν
  | [], _ => none
  | (k, v) :: rest, key => if k = key then some v else lookupA rest key

/-- Association-list set (JS `Map.set`): replace the first entry with this
key in place, otherwise append at the end (JS insertion order). -/
def setA {κ ν : Type} [DecidableEq κ] : List (κ × ν) → κ → ν → List (κ × ν)
  | [], key, v => [(key, v)]
  | (k, w) :: rest, key, v =>
    if k = key then (key, v) :: rest else (k, w) :: setA rest key v

/-- Association-list delete (JS `Map.delete`): drop the first entry with
this key. -/
def eraseKeyA {κ ν : Type} [DecidableEq κ] : List (κ × ν) → κ → List (κ × ν)
  | [], _ => []
  | (k, w) :: rest, key => if k = key then rest else (k, w) :: eraseKeyA rest key

/-- The slice of `models/Agent.ts` state that interaction resolution reads
and writes (identity, kinematics, energy, alive flag, per-opponent
cooldowns). -/
structure AgentI where
  id : ℕ
  pos : Vec2
  vel : Vec2
  energy : ℚ
  isDead : Bool
  cooldowns : List (ℕ × ℕ)
deriving DecidableEq

/-- `Agent.setCooldown`: record `CONFIG.INTERACTION_COOLDOWN` ticks against
the other agent's id. -/
def AgentI.setCooldown (a : AgentI) (otherId : ℕ) : AgentI :=
  { a with cooldowns := setA a.cooldowns otherId CONFIG.INTERACTION_COOLDOWN }

/-- `Agent.applyKnockback`: add `normalize(direction) * force` to the
velocity. -/
def AgentI.applyKnockback (a : AgentI) (direction : Vec2) (force : ℚ) : AgentI :=
  { a with vel := a.vel.add (direction.normalize.scale force) }

/-- First agent's energy through `resolveAgentInteraction`: add the payoff
outcome, subtract the fight cost when both actions are non-IGNORE and this
side chose FIGHT, then clamp to the valid range. -/
def resolveEnergy1 (action1 action2 : Action) (e : ℚ) : ℚ :=
  let o := calculatePayoff action1 action2
  let e := e + o.1
  let e :=
    if action1 ≠ .IGNORE ∧ action2 ≠ .IGNORE ∧ action1 = .FIGHT then
      e - CONFIG.FIGHT_COST
    else e
  clampQ 0 CONFIG.MAX_ENERGY e

/-- Second agent's energy through `resolveAgentInteraction` (symmetric). -/
def resolveEnergy2 (action1 action2 : Action) (e : ℚ) : ℚ :=
  let o := calculatePayoff action1 action2
  let e := e + o.2
  let e :=
    if action1 ≠ .IGNORE ∧ action2 ≠ .IGNORE ∧ action2 = .FIGHT then
      e - CONFIG.FIGHT_COST
    else e
  clampQ 0 CONFIG.MAX_ENERGY e

/-- Knockback segment of `resolveAgentInteraction` for agent2: inside the
`action1 = FIGHT or action2 = FIGHT` branch, agent2 is knocked back exactly
when `action1 = FIGHT`. -/
def knockback2 (a2 : AgentI) (dir : Vec2) (action1 action2 : Action) : AgentI :=
  if action1 = .FIGHT ∨ action2 = .FIGHT then
    if action1 = .FIGHT then a2.applyKnockback dir CONFIG.KNOCKBACK_FORCE else a2
  else a2

/-- Knockback segment of `resolveAgentInteraction` for agent1: inside the
same branch, agent1 is knocked back (with negated force) exactly when
`action2 = FIGHT`. -/
def knockback1 (a1 : AgentI) (dir : Vec2) (action1 action2 : Action) : AgentI :=
  if action1 = .FIGHT ∨ action2 = .FIGHT then
    if action2 = .FIGHT then a1.applyKnockback dir (-CONFIG.KNOCKBACK_FORCE) else a1
  else a1

/-- Death check at the end of `resolveAgentInteraction`. -/
def markDeadIfDrained (a : AgentI) : AgentI :=
  if a.energy ≤ 0 then { a with isDead := true } else a

/-- `InteractionSystem.resolveAgentInteraction`, with the two strategy
decisions passed in as the already-computed actions. Event logging and the
`onEncounterResult` strategy callback are elided: they touch neither
energy, velocity, position, cooldowns nor the alive flag of the pair. -/
def resolveAgentInteraction (agent1 agent2 : AgentI) (action1 action2 : Action) :
    AgentI × AgentI :=
  let a1 := { agent1 with energy := resolveEnergy1 action1 action2 agent1.energy }
  let a2 := { agent2 with energy := resolveEnergy2 action1 action2 agent2.energy }
  let dir : Vec2 :=
    Vec2.normalize ⟨agent2.pos.x - agent1.pos.x, agent2.pos.y - agent1.pos.y⟩
  let a2 := knockback2 a2 dir action1 action2
  let a1 := knockback1 a1 dir action1 action2
  let a1 := a1.setCooldown agent2.id
  let a2 := a2.setCooldown agent1.id
  (markDeadIfDrained a1, markDeadIfDrained a2)

/-- The spec's description of the applied energy-delta pair, written from
the claim's words: (0,0) whenever either action is IGNORE; otherwise the
matrix entry for the action pair, or the swapped entry when only the
reverse ordering is present; with the FIGHT surcharge subtracted only from
whichever side(s) chose FIGHT. -/
def specDeltaPair (a1 a2 : Action) : ℚ × ℚ :=
  if a1 = .IGNORE ∨ a2 = .IGNORE then (0, 0)
  else
    let entry : ℚ × ℚ :=
      match PAYOFF a1 a2, PAYOFF a2 a1 with
      | some p, _ => p
      | none, some q => (q.2, q.1)
      | none, none => (0, 0)
    (entry.1 - (if a1 = .FIGHT then CONFIG.FIGHT_COST else 0),
     entry.2 - (if a2 = .FIGHT then CONFIG.FIGHT_COST else 0))

theorem energy_setCooldown (a : AgentI) (i : ℕ) : (a.setCooldown i).energy = a.energy := rfl

theorem energy_applyKnockback (a : AgentI) (d : Vec2) (f : ℚ) :
    (a.applyKnockback d f).energy = a.energy := rfl

theorem energy_knockback1 (a : AgentI) (d : Vec2) (x y : Action) :
    (knockback1 a d x y).energy = a.energy := by
  unfold knockback1
  split
  · split <;> rfl
  · rfl

theorem energy_knockback2 (a : AgentI) (d : Vec2) (x y : Action) :
    (knockback2 a d x y).energy = a.energy := by
  unfold knockback2
  split
  · split <;> rfl
  · rfl

theorem energy_markDeadIfDrained (a : AgentI) : (markDeadIfDrained a).energy = a.energy := by
  unfold markDeadIfDrained
  split <;> rfl

theorem resolve_energy_fst (agent1 agent2 : AgentI) (action1 action2 : Action) :
    (resolveAgentInteraction agent1 agent2 action1 action2).1.energy
      = resolveEnergy1 action1 action2 agent1.energy := by
  simp [resolveAgentInteraction, energy_markDeadIfDrained, energy_setCooldown,
    energy_knockback1]

theorem resolve_energy_snd (agent1 agent2 : AgentI) (action1 action2 : Action) :
    (resolveAgentInteraction agent1 agent2 action1 action2).2.energy
      = resolveEnergy2 action1 action2 agent2.energy := by
  simp [resolveAgentInteraction, energy_markDeadIfDrained, energy_setCooldown,
    energy_knockback2]

/-- Claim C2: for every resolved Agent-Agent interaction, the energies
after resolution are the old energies plus exactly the spec's delta pair
(matrix entry or its mirror, (0,0) on IGNORE, FIGHT surcharge only on
FIGHT-choosers), clamped to the valid range. -/
theorem resolve_deltas_match_payoff_matrix :
    ∀ (agent1 agent2 : AgentI) (action1 action2 : Action),
      (resolveAgentInteraction agent1 agent2 action1 action2).1.energy
          = clampQ 0 CONFIG.MAX_ENERGY (agent1.energy + (specDeltaPair action1 action2).1) ∧
      (resolveAgentInteraction agent1 agent2 action1 action2).2.energy
          = clampQ 0 CONFIG.MAX_ENERGY (agent2.energy + (specDeltaPair action1 action2).2) := by
  intro agent1 agent2 action1 action2
  rw [resolve_energy_fst, resolve_energy_snd]
  constructor <;>
    cases action1 <;> cases action2 <;>
      simp [resolveEnergy1, resolveEnergy2, specDeltaPair, calculatePayoff, PAYOFF,
        CONFIG.FIGHT_COST, clampQ] <;>
      ring_nf

/-! ## Claim C10: FIGHT versus IGNORE -/

theorem vel_setCooldown (a : AgentI) (i : ℕ) : (a.setCooldown i).vel = a.vel := rfl

theorem vel_markDeadIfDrained (a : AgentI) : (markDeadIfDrained a).vel = a.vel := by
  unfold markDeadIfDrained
  split <;> rfl

theorem cooldowns_markDeadIfDrained (a : AgentI) :
    (markDeadIfDrained a).cooldowns = a.cooldowns := by
  unfold markDeadIfDrained
  split <;> rfl

theorem lookupA_setA_self {κ ν : Type} [DecidableEq κ] (l : List (κ × ν)) (k : κ) (v : ν) :
    lookupA (setA l k v) k = some v := by
  induction l with
  | nil => simp [setA, lookupA]
  | cons p rest ih =>
    obtain ⟨pk, pv⟩ := p
    by_cases h : pk = k
    · simp [setA, lookupA, h]
    · simp [setA, lookupA, h, ih]

/-- Claim C10 (amended): in a FIGHT-versus-IGNORE pairing the deltas are
zero before clamping and no FIGHT surcharge is paid; a knockback impulse is
applied only to the ignoring agent's velocity (the fighter's velocity is
unchanged); and a symmetric cooldown is still set between the pair. -/
theorem fight_ignore_one_sided_knockback :
    ∀ (agent1 agent2 : AgentI),
      (resolveAgentInteraction agent1 agent2 .FIGHT .IGNORE).1.energy
          = clampQ 0 CONFIG.MAX_ENERGY agent1.energy ∧
      (resolveAgentInteraction agent1 agent2 .FIGHT .IGNORE).2.energy
          = clampQ 0 CONFIG.MAX_ENERGY agent2.energy ∧
      (resolveAgentInteraction agent1 agent2 .FIGHT .IGNORE).1.vel = agent1.vel ∧
      (resolveAgentInteraction agent1 agent2 .FIGHT .IGNORE).2.vel
          = agent2.vel.add ((Vec2.normalize (Vec2.normalize
              ⟨agent2.pos.x - agent1.pos.x, agent2.pos.y - agent1.pos.y⟩)).scale
              CONFIG.KNOCKBACK_FORCE) ∧
      lookupA (resolveAgentInteraction agent1 agent2 .FIGHT .IGNORE).1.cooldowns agent2.id
          = some CONFIG.INTERACTION_COOLDOWN ∧
      lookupA (resolveAgentInteraction agent1 agent2 .FIGHT .IGNORE).2.cooldowns agent1.id
          = some CONFIG.INTERACTION_COOLDOWN := by
  intro agent1 agent2
  refine ⟨?_, ?_, ?_, ?_, ?_, ?_⟩
  · rw [resolve_energy_fst]
    simp [resolveEnergy1, calculatePayoff]
  · rw [resolve_energy_snd]
    simp [resolveEnergy2, calculatePayoff]
  · simp [resolveAgentInteraction, vel_markDeadIfDrained, vel_setCooldown, knockback1]
  · simp [resolveAgentInteraction, vel_markDeadIfDrained, vel_setCooldown, knockback2,
      AgentI.applyKnockback]
  · simp [resolveAgentInteraction, cooldowns_markDeadIfDrained, AgentI.setCooldown,
      knockback1, lookupA_setA_self]
  · simp [resolveAgentInteraction, cooldowns_markDeadIfDrained, AgentI.setCooldown,
      knockback2, AgentI.applyKnockback, lookupA_setA_self]

def cxAgent1 : AgentI := ⟨1, ⟨0, 0⟩, ⟨0, 0⟩, 100, false, []⟩

def cxAgent2 : AgentI := ⟨2, ⟨6, 8⟩, ⟨0, 0⟩, 100, false, []⟩

theorem normalize_six_eight : Vec2.normalize ⟨6, 8⟩ = ⟨3/5, 4/5⟩ := by
  have hm : ((⟨6, 8⟩ : Vec2)).mag = 10 := by
    unfold Vec2.mag
    rw [show ((⟨6, 8⟩ : Vec2)).magSq = 100 from by norm_num [Vec2.magSq]]
    rw [sqrtQ_of_sq 100 10 1 (by norm_num) (by norm_num) (by norm_num)]
    norm_num
  unfold Vec2.normalize
  rw [hm]
  norm_num

theorem normalize_unit_three_four : Vec2.normalize ⟨3/5, 4/5⟩ = ⟨3/5, 4/5⟩ := by
  have hm : ((⟨3/5, 4/5⟩ : Vec2)).mag = 1 := by
    unfold Vec2.mag
    rw [show ((⟨3/5, 4/5⟩ : Vec2)).magSq = 1 from by norm_num [Vec2.magSq]]
    rw [sqrtQ_of_sq 1 1 1 (by norm_num) (by norm_num) (by norm_num)]
    norm_num
  unfold Vec2.normalize
  rw [hm]
  norm_num

/-- Claim C10 (counterexample): with agent 1 at the origin choosing FIGHT
and agent 2 at (6,8) choosing IGNORE, the fighter's velocity is exactly
unchanged while the ignorer's velocity receives the knockback impulse, so
the knockback is not applied to both agents' velocities. -/
theorem fight_ignore_knockback_counterexample :
    (resolveAgentInteraction cxAgent1 cxAgent2 .FIGHT .IGNORE).1.vel = cxAgent1.vel ∧
    (resolveAgentInteraction cxAgent1 cxAgent2 .FIGHT .IGNORE).2.vel ≠ cxAgent2.vel := by
  constructor
  · simp [resolveAgentInteraction, vel_markDeadIfDrained, vel_setCooldown, knockback1]
  · simp only [resolveAgentInteraction, vel_markDeadIfDrained, vel_setCooldown, knockback2,
      AgentI.applyKnockback, cxAgent1, cxAgent2]
    norm_num [normalize_six_eight, normalize_unit_three_four, Vec2.add, Vec2.scale,
      Vec2.mk.injEq, CONFIG.KNOCKBACK_FORCE]

/-! ## Claim C8: single-step under pause (`core/World.ts`) -/

/-- The pause-relevant slice of `World`: the `_paused` flag plus the rest of
the simulation state, abstracted as `σ`; `tick` stands for the body of
`World.update` past the paused early-return. -/
structure WorldCtl (σ : Type) where
  paused : Bool
  sim : σ

namespace WorldCtl

/-- `World.update`: skip everything if paused, otherwise run one tick body
with the given delta. -/
def update {σ : Type} (tick : σ → ℚ → σ) (w : WorldCtl σ) (delta : ℚ) : WorldCtl σ :=
  if w.paused then w else { w with sim := tick w.sim delta }

/-- `World.step`: remember the pause flag, force it off, run `update` with
the fixed delta 1/60, restore the remembered flag. -/
def step {σ : Type} (tick : σ → ℚ → σ) (w : WorldCtl σ) : WorldCtl σ :=
  let wasPaused := w.paused
  let w1 : WorldCtl σ := { w with paused := false }
  let w2 := update tick w1 (1/60)
  { w2 with paused := wasPaused }

end WorldCtl

/-- Claim C8: for every prior pause state, `World.step` leaves the pause
flag exactly as it was and the simulation state is exactly one application
of the tick body at the fixed delta 1/60 — one `World.update` executed
regardless of pause, and no other. -/
theorem step_runs_one_fixed_tick_and_restores_pause :
    ∀ (σ : Type) (tick : σ → ℚ → σ) (w : WorldCtl σ),
      (WorldCtl.step tick w).paused = w.paused ∧
      (WorldCtl.step tick w).sim = tick w.sim (1/60) := by
  intro σ tick w
  simp [WorldCtl.step, WorldCtl.update]

/-! ## Claim C5: capped fixed-timestep loop (`core/GameLoop.ts`) -/

namespace GameLoop

def timeStep : ℚ := 1/60

def maxUpdates : ℕ := 5

/-- The `while (accumulator >= timeStep && updateCount < maxUpdates)` loop:
returns the final accumulator and the number of updates executed. -/
def runSteps (acc : ℚ) (count : ℕ) : ℚ × ℕ :=
  if h : timeStep ≤ acc ∧ count < maxUpdates then
    runSteps (acc - timeStep) (count + 1)
  else (acc, count)
termination_by maxUpdates - count
decreasing_by omega

/-- One invocation of `GameLoop.loop` (the optimized loop), restricted to
its timing state: cap the wall-clock delta at 0.25s, add to the
accumulator, run at most `maxUpdates` fixed steps, and zero the accumulator
when the cap was reached. FPS bookkeeping and render-frame skipping are
elided: they do not touch the accumulator or the update count. Returns the
accumulator carried to the next poll and the number of `updateFn` calls. -/
def loopPoll (lastTime accumulator currentTime : ℚ) : ℚ × ℕ :=
  let deltaTime := (currentTime - lastTime) / 1000
  let safeDelta := min deltaTime (1/4)
  let acc := accumulator + safeDelta
  let r := runSteps acc 0
  (if maxUpdates ≤ r.2 then 0 else r.1, r.2)

theorem runSteps_count_le (acc : ℚ) (count : ℕ) (h : count ≤ maxUpdates) :
    (runSteps acc count).2 ≤ maxUpdates := by
  by_cases hc : timeStep ≤ acc ∧ count < maxUpdates
  · rw [runSteps, dif_pos hc]
    exact runSteps_count_le (acc - timeStep) (count + 1) hc.2
  · rw [runSteps, dif_neg hc]
    exact h
termination_by maxUpdates - count
decreasing_by omega

end GameLoop

/-- Claim C5: each poll of the game loop executes at most `maxUpdates`
fixed-size steps, and when that cap is reached the accumulator is reset to
zero, discarding all remaining accumulated time. -/
theorem loop_caps_updates_and_discards_excess :
    ∀ lastTime accumulator currentTime : ℚ,
      (GameLoop.loopPoll lastTime accumulator currentTime).2 ≤ GameLoop.maxUpdates ∧
      ((GameLoop.loopPoll lastTime accumulator currentTime).2 = GameLoop.maxUpdates →
        (GameLoop.loopPoll lastTime accumulator currentTime).1 = 0) := by
  intro lastTime accumulator currentTime
  constructor
  · exact GameLoop.runSteps_count_le _ 0 (by norm_num [GameLoop.maxUpdates])
  · intro h
    simp only [GameLoop.loopPoll] at h ⊢
    rw [if_pos (le_of_eq h.symm)]

/-- Witness for C5: a poll landing 250ms behind runs exactly the cap of 5
updates and returns a zero accumulator. -/
theorem loop_caps_updates_witness :
    (GameLoop.loopPoll 0 0 1000).2 ≤ GameLoop.maxUpdates ∧
    ((GameLoop.loopPoll 0 0 1000).2 = GameLoop.maxUpdates →
      (GameLoop.loopPoll 0 0 1000).1 = 0) :=
  loop_caps_updates_and_discards_excess 0 0 1000

/-! ## Claim C4: seed does not determine the trajectories -/

/-- Agent traits record (`models/Traits.ts`). -/
structure Traits where
  speed : ℚ
  vision : ℚ
  aggression : ℚ
  stamina : ℚ
deriving DecidableEq

/-- `randomTraits` from `models/Traits.ts`, with the four successive
`Math.random()` draws passed in as `u1..u4`: the function reads the
process-global unseeded generator, not the seeded RNG module. -/
def randomTraits (u1 u2 u3 u4 : ℚ) : Traits :=
  { speed := 0.8 + u1 * 0.4
    vision := 0.8 + u2 * 0.4
    aggression := u3
    stamina := 0.8 + u4 * 0.4 }

/-- Trait roll of one spawned agent in a run configured with `seed`. The
`seed` argument is unused precisely because the source draws these values
from `Math.random()`; `ambient` is the process-global draw sequence that a
run happens to observe. -/
def spawnTraitsRun (seed : ℕ) (ambient : ℕ → ℚ) : Traits :=
  randomTraits (ambient 0) (ambient 1) (ambient 2) (ambient 3)

/-! ## Strategy spawning (`strategies/index.ts`) -/

/-- The closed strategy set (`StrategyType`). -/
inductive Strategy
  | Aggressive
  | Passive
  | Cooperative
  | TitForTat
  | Random
deriving DecidableEq

/-- Sum of the spawn weights (`Object.values(ratios).reduce(...)`). -/
def sumWeights (l : List (Strategy × ℚ)) : ℚ := (l.map Prod.snd).sum

/-- The `for ... { random -= ratio; if (random <= 0) return type }` loop of
`pickRandomStrategy`, with the final `return 'Random'` fallback. -/
def pickGo : ℚ → List (Strategy × ℚ) → Strategy
  | _, [] => .Random
  | r, (t, w) :: rest => if r - w ≤ 0 then t else pickGo (r - w) rest

/-- `pickRandomStrategy(ratios)` with the single `Math.random()` draw `u`
passed in: scale the draw by the weight total and walk the entries. -/
def pickRandomStrategy (l : List (Strategy × ℚ)) (u : ℚ) : Strategy :=
  pickGo (u * sumWeights l) l

/-- `CONFIG.STRATEGY_SPAWN`, the default spawn distribution. -/
def STRATEGY_SPAWN : List (Strategy × ℚ) :=
  [(.Aggressive, 0.25), (.Passive, 0.25), (.Cooperative, 0.20),
   (.TitForTat, 0.20), (.Random, 0.10)]

/-- Claim C4 (code bug exhibit): two runs configured with the same seed 42
but observing different process-global `Math.random()` sequences (first
draws 0.1 versus 0.9) produce different agent traits and different spawned
strategies, so same-seed runs are not bit-identical. -/
theorem same_seed_runs_diverge :
    spawnTraitsRun 42 (fun _ => 1/10) ≠ spawnTraitsRun 42 (fun _ => 9/10) ∧
    pickRandomStrategy STRATEGY_SPAWN (1/10) ≠ pickRandomStrategy STRATEGY_SPAWN (9/10) := by
  constructor
  · norm_num [spawnTraitsRun, randomTraits, Traits.mk.injEq]
  · norm_num [pickRandomStrategy, pickGo, sumWeights, STRATEGY_SPAWN]
    decide

/-! ## Claim C6: zero-sum spawn distribution -/

/-- An all-zero spawn distribution over the five strategies. -/
def zeroSpawn : List (Strategy × ℚ) :=
  [(.Aggressive, 0), (.Passive, 0), (.Cooperative, 0), (.TitForTat, 0), (.Random, 0)]

/-- Claim C6 (counterexample): with a spawn distribution summing to 0,
`pickRandomStrategy` returns the first strategy of the record for every
draw — it does not fall back to the default distribution, under which the
draw 0.9 selects TitForTat. -/
theorem zero_sum_returns_first_strategy_not_default :
    pickRandomStrategy zeroSpawn (1/10) = .Aggressive ∧
    pickRandomStrategy zeroSpawn (9/10) = .Aggressive ∧
    pickRandomStrategy STRATEGY_SPAWN (9/10) = .TitForTat := by
  refine ⟨?_, ?_, ?_⟩ <;> norm_num [pickRandomStrategy, pickGo, sumWeights, zeroSpawn,
    STRATEGY_SPAWN]

/-- Partial sums of the spawn weights: `cumWeight l k` is the weight mass
of the first `k` entries. -/
def cumWeight (l : List (Strategy × ℚ)) (k : ℕ) : ℚ :=
  ((l.take k).map Prod.snd).sum

theorem cumWeight_zero (l : List (Strategy × ℚ)) : cumWeight l 0 = 0 := rfl

theorem cumWeight_cons (t : Strategy) (w : ℚ) (rest : List (Strategy × ℚ)) (k : ℕ) :
    cumWeight ((t, w) :: rest) (k + 1) = w + cumWeight rest k := by
  simp [cumWeight, List.take_succ_cons]

theorem cumWeight_nonneg (l : List (Strategy × ℚ)) (k : ℕ)
    (h : ∀ p ∈ l, 0 ≤ p.2) : 0 ≤ cumWeight l k := by
  apply List.sum_nonneg
  intro x hx
  obtain ⟨p, hp, rfl⟩ := List.mem_map.mp hx
  exact h p (List.take_subset k l hp)

theorem pickGo_interval (l : List (Strategy × ℚ)) (r : ℚ) (k : ℕ) (hk : k < l.length)
    (hnn : ∀ p ∈ l, 0 ≤ p.2) (hlo : cumWeight l k < r) (hhi : r ≤ cumWeight l (k + 1)) :
    pickGo r l = (l.get ⟨k, hk⟩).1 := by
  induction l generalizing r k with
  | nil => simp at hk
  | cons p rest ih =>
    obtain ⟨t, w⟩ := p
    cases k with
    | zero =>
      have hr : r - w ≤ 0 := by
        have := hhi
        rw [cumWeight_cons] at this
        rw [cumWeight_zero] at this
        simp [cumWeight] at this ⊢
        linarith
      simp [pickGo, hr]
    | succ k =>
      have hrest : ∀ p ∈ rest, 0 ≤ p.2 := fun p hp => hnn p (List.mem_cons_of_mem _ hp)
      have hpos : ¬ (r - w ≤ 0) := by
        rw [cumWeight_cons] at hlo
        have h0 : 0 ≤ cumWeight rest k := cumWeight_nonneg rest k hrest
        push_neg
        linarith
      rw [List.length_cons] at hk
      have hk' : k < rest.length := Nat.lt_of_succ_lt_succ hk
      have hlo' : cumWeight rest k < r - w := by
        rw [cumWeight_cons] at hlo
        linarith
      have hhi' : r - w ≤ cumWeight rest (k + 1) := by
        rw [cumWeight_cons] at hhi
        linarith
      simp only [pickGo, if_neg hpos]
      rw [ih (r - w) k hk' hrest hlo' hhi']
      rfl

/-- Claim C6 (amended): when the spawn distribution handed to
`pickRandomStrategy` has nonnegative entries summing to 0, the first
strategy of the record is returned for every draw — the documented default
distribution is used only when no record is supplied at all. For a
distribution with positive sum, the strategy at index k is selected exactly
for draws u with `cumWeight k < u*sum <= cumWeight (k+1)`, an interval of
relative measure ratio/sum. -/
theorem pick_strategy_zero_sum_and_intervals :
    (∀ (l : List (Strategy × ℚ)) (u : ℚ) (hne : l ≠ []),
      (∀ p ∈ l, 0 ≤ p.2) → sumWeights l = 0 →
      pickRandomStrategy l u = (l.head hne).1) ∧
    (∀ (l : List (Strategy × ℚ)) (u : ℚ) (k : ℕ) (hk : k < l.length),
      (∀ p ∈ l, 0 ≤ p.2) →
      cumWeight l k < u * sumWeights l → u * sumWeights l ≤ cumWeight l (k + 1) →
      pickRandomStrategy l u = (l.get ⟨k, hk⟩).1) := by
  constructor
  · intro l u hne hnn hsum
    match l, hne with
    | (t, w) :: rest, _ =>
      have hw : 0 ≤ w := hnn (t, w) (List.mem_cons_self _ _)
      have hrest : 0 ≤ (rest.map Prod.snd).sum := by
        apply List.sum_nonneg
        intro x hx
        obtain ⟨p, hp, rfl⟩ := List.mem_map.mp hx
        exact hnn p (List.mem_cons_of_mem _ hp)
      have hsum' : w + (rest.map Prod.snd).sum = 0 := by
        simpa [sumWeights] using hsum
      have hw0 : w = 0 := by linarith
      subst hw0
      simp [pickRandomStrategy, hsum, pickGo]
  · intro l u k hk hnn hlo hhi
    exact pickGo_interval l (u * sumWeights l) k hk hnn hlo hhi

/-- Witness for C6: the all-zero record returns its first strategy at draw
0.9, and under the default distribution the draw 0.8 lands in TitForTat's
interval (0.7, 0.9]. -/
theorem pick_strategy_witness :
    pickRandomStrategy zeroSpawn (9/10) = .Aggressive ∧
    pickRandomStrategy STRATEGY_SPAWN (4/5) = .TitForTat := by
  constructor
  · have h := pick_strategy_zero_sum_and_intervals.1 zeroSpawn (9/10)
      (by simp [zeroSpawn]) (by norm_num [zeroSpawn]) (by norm_num [sumWeights, zeroSpawn])
    simpa [zeroSpawn] using h
  · have h := pick_strategy_zero_sum_and_intervals.2 STRATEGY_SPAWN (4/5) 3
      (by norm_num [STRATEGY_SPAWN]) (by norm_num [STRATEGY_SPAWN])
      (by norm_num [cumWeight, STRATEGY_SPAWN, sumWeights])
      (by norm_num [cumWeight, STRATEGY_SPAWN, sumWeights])
    simpa [STRATEGY_SPAWN] using h

/-! ## Claim C7: encounter memory (`models/Agent.ts` rememberEncounter) -/

/-- Encounter outcome classification. -/
inductive Outcome
  | won
  | lost
  | tie
  | fled
deriving DecidableEq

/-- An entry of the encounter memory (`EncounterMemory` in
`strategies/IStrategy.ts`). -/
structure EncounterMemory where
  agentId : ℕ
  lastAction : Action
  timestamp : ℤ
  outcome : Outcome
deriving DecidableEq

/-- One step of the oldest-entry scan in `rememberEncounter`: keep the
running best, replacing it only on a strictly smaller timestamp. -/
def olderOf (best : Option EncounterMemory) (e : EncounterMemory) : Option EncounterMemory :=
  match best with
  | none => some e
  | some b => if e.timestamp < b.timestamp then some e else some b

/-- The `for (const [id, mem] of this.encounterMemory)` scan for the oldest
entry (initial best time Infinity, so the first entry always wins). -/
def findOldest (m : List EncounterMemory) : Option EncounterMemory :=
  m.foldl olderOf none

/-- `Map.delete` keyed by agent id (entries are keyed uniquely). -/
def eraseMemId : List EncounterMemory → ℕ → List EncounterMemory
  | [], _ => []
  | e :: rest, i => if e.agentId = i then rest else e :: eraseMemId rest i

/-- `Map.set` keyed by agent id: replace in place, else append. -/
def setMem : List EncounterMemory → EncounterMemory → List EncounterMemory
  | [], entry => [entry]
  | e :: rest, entry =>
    if e.agentId = entry.agentId then entry :: rest else e :: setMem rest entry

/-- `Agent.rememberEncounter`: when the memory has reached
`CONFIG.DEFAULT_MEMORY_SIZE` entries, delete the oldest-timestamp entry,
then store the new entry under the opponent's id. -/
def rememberEncounter (m : List EncounterMemory) (agentId : ℕ) (action : Action)
    (outcome : Outcome) (now : ℤ) : List EncounterMemory :=
  let m1 :=
    if CONFIG.DEFAULT_MEMORY_SIZE ≤ m.length then
      match findOldest m with
      | some old => eraseMemId m old.agentId
      | none => m
    else m
  setMem m1 ⟨agentId, action, now, outcome⟩

theorem length_setMem_le (m : List EncounterMemory) (entry : EncounterMemory) :
    (setMem m entry).length ≤ m.length + 1 := by
  induction m with
  | nil => simp [setMem]
  | cons e rest ih =>
    by_cases h : e.agentId = entry.agentId <;> simp [setMem, h] <;> omega

theorem length_eraseMemId (m : List EncounterMemory) (i : ℕ)
    (h : ∃ x ∈ m, x.agentId = i) : (eraseMemId m i).length = m.length - 1 := by
  induction m with
  | nil => simp at h
  | cons e rest ih =>
    by_cases he : e.agentId = i
    · simp [eraseMemId, he]
    · have h' : ∃ x ∈ rest, x.agentId = i := by
        obtain ⟨x, hx, hxi⟩ := h
        rcases List.mem_cons.mp hx with rfl | hxr
        · exact absurd hxi he
        · exact ⟨x, hxr, hxi⟩
      have hpos : 1 ≤ rest.length := by
        obtain ⟨x, hx, _⟩ := h'
        exact List.length_pos.mpr (List.ne_nil_of_mem hx)
      rw [eraseMemId, if_neg he]
      simp only [List.length_cons, ih h']
      omega

theorem foldl_olderOf_spec (m : List EncounterMemory) (b : EncounterMemory) :
    ∃ c, m.foldl olderOf (some b) = some c ∧ (c = b ∨ c ∈ m) ∧
      c.timestamp ≤ b.timestamp ∧ ∀ e ∈ m, c.timestamp ≤ e.timestamp := by
  induction m generalizing b with
  | nil => exact ⟨b, rfl, Or.inl rfl, le_refl _, by simp⟩
  | cons e rest ih =>
    by_cases h : e.timestamp < b.timestamp
    · obtain ⟨c, hc1, hc2, hc3, hc4⟩ := ih e
      refine ⟨c, ?_, ?_, ?_, ?_⟩
      · simpa [olderOf, h] using hc1
      · rcases hc2 with rfl | hm
        · exact Or.inr (List.mem_cons_self _ _)
        · exact Or.inr (List.mem_cons_of_mem _ hm)
      · exact le_trans hc3 (le_of_lt h)
      · intro x hx
        rcases List.mem_cons.mp hx with rfl | hxr
        · exact hc3
        · exact hc4 x hxr
    · obtain ⟨c, hc1, hc2, hc3, hc4⟩ := ih b
      refine ⟨c, ?_, ?_, hc3, ?_⟩
      · simpa [olderOf, h] using hc1
      · rcases hc2 with rfl | hm
        · exact Or.inl rfl
        · exact Or.inr (List.mem_cons_of_mem _ hm)
      · intro x hx
        rcases List.mem_cons.mp hx with rfl | hxr
        · push_neg at h
          exact le_trans hc3 h
        · exact hc4 x hxr

theorem findOldest_spec (m : List EncounterMemory) (hne : m ≠ []) :
    ∃ old, findOldest m = some old ∧ old ∈ m ∧ ∀ e ∈ m, old.timestamp ≤ e.timestamp := by
  match m, hne with
  | e :: rest, _ =>
    have h0 : findOldest (e :: rest) = rest.foldl olderOf (some e) := by
      simp [findOldest, olderOf]
    obtain ⟨c, hc1, hc2, hc3, hc4⟩ := foldl_olderOf_spec rest e
    refine ⟨c, h0.trans hc1, ?_, ?_⟩
    · rcases hc2 with rfl | hm
      · exact List.mem_cons_self _ _
      · exact List.mem_cons_of_mem _ hm
    · intro x hx
      rcases List.mem_cons.mp hx with rfl | hxr
      · exact hc3
      · exact hc4 x hxr

/-- Claim C7: starting from a memory within capacity, `rememberEncounter`
leaves at most `CONFIG.DEFAULT_MEMORY_SIZE` (= 5) entries, and when the
memory is at capacity, an entry of minimal timestamp is the one deleted
before the new entry is stored. -/
theorem rememberEncounter_capacity_and_eviction :
    ∀ (m : List EncounterMemory) (agentId : ℕ) (action : Action) (outcome : Outcome)
      (now : ℤ),
      m.length ≤ CONFIG.DEFAULT_MEMORY_SIZE →
      (rememberEncounter m agentId action outcome now).length ≤ CONFIG.DEFAULT_MEMORY_SIZE ∧
      (m.length = CONFIG.DEFAULT_MEMORY_SIZE →
        ∃ old ∈ m, (∀ e ∈ m, old.timestamp ≤ e.timestamp) ∧
          rememberEncounter m agentId action outcome now
            = setMem (eraseMemId m old.agentId) ⟨agentId, action, now, outcome⟩) := by
  intro m agentId action outcome now hcap
  by_cases hfull : CONFIG.DEFAULT_MEMORY_SIZE ≤ m.length
  · have hlen : m.length = CONFIG.DEFAULT_MEMORY_SIZE := le_antisymm hcap hfull
    have hne : m ≠ [] := by
      intro h
      rw [h] at hlen
      simp [CONFIG.DEFAULT_MEMORY_SIZE] at hlen
    obtain ⟨old, hfind, hmem, hmin⟩ := findOldest_spec m hne
    have heq : rememberEncounter m agentId action outcome now
        = setMem (eraseMemId m old.agentId) ⟨agentId, action, now, outcome⟩ := by
      unfold rememberEncounter
      rw [if_pos hfull, hfind]
    constructor
    · rw [heq]
      have he : (eraseMemId m old.agentId).length = m.length - 1 :=
        length_eraseMemId m old.agentId ⟨old, hmem, rfl⟩
      calc (setMem (eraseMemId m old.agentId) ⟨agentId, action, now, outcome⟩).length
          ≤ (eraseMemId m old.agentId).length + 1 := length_setMem_le _ _
        _ ≤ CONFIG.DEFAULT_MEMORY_SIZE := by
            rw [he, hlen]
            simp [CONFIG.DEFAULT_MEMORY_SIZE]
    · intro _
      exact ⟨old, hmem, hmin, heq⟩
  · push_neg at hfull
    constructor
    · unfold rememberEncounter
      rw [if_neg (not_le.mpr hfull)]
      calc (setMem m ⟨agentId, action, now, outcome⟩).length
          ≤ m.length + 1 := length_setMem_le _ _
        _ ≤ CONFIG.DEFAULT_MEMORY_SIZE := by omega
    · intro hlen
      omega

def cmem : List EncounterMemory :=
  [⟨1, .SHARE, 10, .tie⟩, ⟨2, .FIGHT, 3, .won⟩, ⟨3, .FLEE, 7, .lost⟩,
   ⟨4, .SHARE, 5, .tie⟩, ⟨5, .IGNORE, 9, .fled⟩]

/-- Witness for C7 at a concrete full memory. -/
theorem rememberEncounter_witness :
    (rememberEncounter cmem 9 .FIGHT .won 100).length ≤ CONFIG.DEFAULT_MEMORY_SIZE ∧
    (cmem.length = CONFIG.DEFAULT_MEMORY_SIZE →
      ∃ old ∈ cmem, (∀ e ∈ cmem, old.timestamp ≤ e.timestamp) ∧
        rememberEncounter cmem 9 .FIGHT .won 100
          = setMem (eraseMemId cmem old.agentId) ⟨9, .FIGHT, 100, .won⟩) :=
  rememberEncounter_capacity_and_eviction cmem 9 .FIGHT .won 100
    (by simp [cmem, CONFIG.DEFAULT_MEMORY_SIZE])

/-! ## Claim C3: live-agent energy bounds across a tick -/

/-- The slice of agent state the per-tick energy pipeline touches. -/
structure AgentT where
  energy : ℚ
  age : ℚ
  vel : Vec2
  stamina : ℚ
  isDead : Bool

/-- `Agent.drainMovementEnergy`: speed times `MOVEMENT_COST_FACTOR` times
delta, divided by the stamina trait. -/
def drainMovementEnergy (a : AgentT) (delta : ℚ) : AgentT :=
  let speed := a.vel.mag
  { a with energy := a.energy - speed * CONFIG.MOVEMENT_COST_FACTOR * delta * (1 / a.stamina) }

/-- `Agent.drainBaseEnergy`. `CONFIG.AGE_ENERGY_COST_FACTOR` is referenced
by the source but absent from the captured config module, so it is passed
in as the parameter `ageFactor`. -/
def drainBaseEnergy (a : AgentT) (ageFactor delta : ℚ) : AgentT :=
  let ageMultiplier := 1 + a.age * ageFactor
  { a with energy := a.energy - CONFIG.BASE_TICK_COST * ageMultiplier * delta * (1 / a.stamina) }

/-- `Agent.gainEnergy`: add and cap at `MAX_ENERGY`. -/
def gainEnergy (a : AgentT) (amount : ℚ) : AgentT :=
  { a with energy := min (a.energy + amount) CONFIG.MAX_ENERGY }

/-- One agent-agent resolution as experienced by one side: apply the
energy delta, clamp to `[0, MAX_ENERGY]`, mark dead at zero (from
`InteractionSystem.resolveAgentInteraction`). -/
def interactApply (a : AgentT) (delta : ℚ) : AgentT :=
  let e := clampQ 0 CONFIG.MAX_ENERGY (a.energy + delta)
  if e ≤ 0 then { a with energy := e, isDead := true } else { a with energy := e }

/-- The age advance of `Agent.updatePhysics` (energy untouched). -/
def agePhysics (a : AgentT) (delta : ℚ) : AgentT := { a with age := a.age + delta }

/-- Modelled from the spec: the Evolution System source is not under src/
(only its callers are). Per the spec, reproduction subtracts the fixed
reproduction cost from the parent. -/
def reproPhase (a : AgentT) (reproduces : Bool) : AgentT :=
  if reproduces then { a with energy := a.energy - CONFIG.REPRODUCTION_COST } else a

/-- Modelled from the spec: an agent is destroyed (flag set) when its
energy is at or below 0 or its age exceeds a maximum. -/
def deathMark (a : AgentT) (maxAge : ℚ) : AgentT :=
  if a.energy ≤ 0 ∨ maxAge < a.age then { a with isDead := true } else a

/-- Modelled from the spec: the Evolution System runs reproduction and
then death marking. -/
def evolutionPhase (a : AgentT) (reproduces : Bool) (maxAge : ℚ) : AgentT :=
  deathMark (reproPhase a reproduces) maxAge

/-- One tick of `World.update` as experienced by a single agent, in system
order: movement drains, physics age advance, food gains, agent-agent
resolutions, evolution. `foods` are the energy values consumed and
`interactions` the payoff deltas of this agent's resolutions this tick. -/
def agentTick (a : AgentT) (ageFactor delta maxAge : ℚ) (foods : List ℚ)
    (interactions : List ℚ) (reproduces : Bool) : AgentT :=
  evolutionPhase
    (List.foldl interactApply
      (List.foldl gainEnergy
        (agePhysics (drainBaseEnergy (drainMovementEnergy a delta) ageFactor delta) delta)
        foods)
      interactions)
    reproduces maxAge

theorem clampQ_le_hi (lo hi x : ℚ) (h : lo ≤ hi) : clampQ lo hi x ≤ hi :=
  max_le h (min_le_left _ _)

theorem foldl_gainEnergy_le_max (foods : List ℚ) (a : AgentT)
    (h : a.energy ≤ CONFIG.MAX_ENERGY) :
    (List.foldl gainEnergy a foods).energy ≤ CONFIG.MAX_ENERGY := by
  induction foods generalizing a with
  | nil => exact h
  | cons v rest ih =>
    exact ih (gainEnergy a v) (min_le_right _ _)

theorem interactApply_energy_le (a : AgentT) (d : ℚ) :
    (interactApply a d).energy ≤ CONFIG.MAX_ENERGY := by
  unfold interactApply
  by_cases h : clampQ 0 CONFIG.MAX_ENERGY (a.energy + d) ≤ 0 <;>
    simp only [h, if_true, if_false, ite_true, ite_false] <;>
    exact clampQ_le_hi 0 CONFIG.MAX_ENERGY _ (by norm_num [CONFIG.MAX_ENERGY])

theorem foldl_interactApply_le_max (ints : List ℚ) (a : AgentT)
    (h : a.energy ≤ CONFIG.MAX_ENERGY) :
    (List.foldl interactApply a ints).energy ≤ CONFIG.MAX_ENERGY := by
  induction ints generalizing a with
  | nil => exact h
  | cons d rest ih =>
    exact ih (interactApply a d) (interactApply_energy_le a d)

theorem deathMark_energy (a : AgentT) (mA : ℚ) : (deathMark a mA).energy = a.energy := by
  unfold deathMark
  split <;> rfl

theorem reproPhase_energy_le (a : AgentT) (rep : Bool) :
    (reproPhase a rep).energy ≤ a.energy := by
  unfold reproPhase
  split
  · simp only
    norm_num [CONFIG.REPRODUCTION_COST]
  · exact le_refl _

theorem deathMark_alive_pos (a : AgentT) (mA : ℚ)
    (h : (deathMark a mA).isDead = false) : 0 < (deathMark a mA).energy := by
  unfold deathMark at *
  by_cases hg : a.energy ≤ 0 ∨ mA < a.age
  · rw [if_pos hg] at h
    simp at h
  · rw [if_neg hg] at *
    push_neg at hg
    exact hg.1

theorem evolutionPhase_energy_le (a : AgentT) (rep : Bool) (mA : ℚ) :
    (evolutionPhase a rep mA).energy ≤ a.energy := by
  unfold evolutionPhase
  rw [deathMark_energy]
  exact reproPhase_energy_le a rep

theorem evolutionPhase_alive_pos (a : AgentT) (rep : Bool) (mA : ℚ)
    (h : (evolutionPhase a rep mA).isDead = false) :
    0 < (evolutionPhase a rep mA).energy :=
  deathMark_alive_pos _ _ h

/-- Claim C3: an agent alive at the end of a tick has energy within
`[0, MAX_ENERGY]`, given it started the tick at or below `MAX_ENERGY` with
a nonnegative timestep, positive stamina trait, nonnegative age and a
nonnegative age cost factor: the movement and base drains only subtract,
gains and interaction deltas are clamped, and the evolution phase marks
any agent at or below zero energy dead before cleanup. -/
theorem live_agent_energy_in_range :
    ∀ (a : AgentT) (ageFactor delta maxAge : ℚ) (foods interactions : List ℚ)
      (reproduces : Bool),
      a.energy ≤ CONFIG.MAX_ENERGY → 0 ≤ delta → 0 < a.stamina → 0 ≤ a.age →
      0 ≤ ageFactor →
      (agentTick a ageFactor delta maxAge foods interactions reproduces).isDead = false →
      0 ≤ (agentTick a ageFactor delta maxAge foods interactions reproduces).energy ∧
      (agentTick a ageFactor delta maxAge foods interactions reproduces).energy
        ≤ CONFIG.MAX_ENERGY := by
  intro a ageFactor delta maxAge foods interactions reproduces hmax hd hst hage hfac halive
  have hmag : 0 ≤ a.vel.mag := sqrtQ_nonneg _
  have hstinv : 0 ≤ 1 / a.stamina := by positivity
  have h1 : (drainMovementEnergy a delta).energy ≤ a.energy := by
    unfold drainMovementEnergy
    simp only
    have hcost : 0 ≤ a.vel.mag * CONFIG.MOVEMENT_COST_FACTOR * delta * (1 / a.stamina) := by
      have : (0:ℚ) ≤ CONFIG.MOVEMENT_COST_FACTOR := by norm_num [CONFIG.MOVEMENT_COST_FACTOR]
      exact mul_nonneg (mul_nonneg (mul_nonneg hmag this) hd) hstinv
    linarith
  have h2 : (drainBaseEnergy (drainMovementEnergy a delta) ageFactor delta).energy
      ≤ (drainMovementEnergy a delta).energy := by
    unfold drainBaseEnergy
    simp only
    have hmult : 0 ≤ 1 + (drainMovementEnergy a delta).age * ageFactor := by
      have : (drainMovementEnergy a delta).age = a.age := rfl
      rw [this]
      have := mul_nonneg hage hfac
      linarith
    have hst' : (drainMovementEnergy a delta).stamina = a.stamina := rfl
    have hcost : 0 ≤ CONFIG.BASE_TICK_COST * (1 + (drainMovementEnergy a delta).age * ageFactor)
        * delta * (1 / (drainMovementEnergy a delta).stamina) := by
      rw [hst']
      have hb : (0:ℚ) ≤ CONFIG.BASE_TICK_COST := by norm_num [CONFIG.BASE_TICK_COST]
      exact mul_nonneg (mul_nonneg (mul_nonneg hb hmult) hd) hstinv
    linarith
  have h3 : (agePhysics (drainBaseEnergy (drainMovementEnergy a delta) ageFactor delta)
      delta).energy ≤ CONFIG.MAX_ENERGY := by
    have : (agePhysics (drainBaseEnergy (drainMovementEnergy a delta) ageFactor delta)
        delta).energy = (drainBaseEnergy (drainMovementEnergy a delta) ageFactor delta).energy :=
      rfl
    rw [this]
    linarith
  have h4 := foldl_gainEnergy_le_max foods _ h3
  have h5 := foldl_interactApply_le_max interactions _ h4
  constructor
  · exact le_of_lt (evolutionPhase_alive_pos _ _ _ halive)
  · exact le_trans (evolutionPhase_energy_le _ _ _) h5

def wAgent : AgentT := ⟨100, 0, ⟨3, 4⟩, 1, false⟩

theorem mag_three_four : ((⟨3, 4⟩ : Vec2)).mag = 5 := by
  unfold Vec2.mag
  rw [show ((⟨3, 4⟩ : Vec2)).magSq = 25 from by norm_num [Vec2.magSq]]
  rw [sqrtQ_of_sq 25 5 1 (by norm_num) (by norm_num) (by norm_num)]
  norm_num

/-- Witness for C3 at one concrete tick (speed 5, one food, one fight
payoff). -/
theorem live_agent_energy_witness :
    0 ≤ (agentTick wAgent 0 (1/60) 100 [25] [-20] false).energy ∧
    (agentTick wAgent 0 (1/60) 100 [25] [-20] false).energy ≤ CONFIG.MAX_ENERGY :=
  live_agent_energy_in_range wAgent 0 (1/60) 100 [25] [-20] false
    (by norm_num [wAgent, CONFIG.MAX_ENERGY])
    (by norm_num)
    (by norm_num [wAgent])
    (by norm_num [wAgent])
    (by norm_num)
    (by norm_num [agentTick, wAgent, drainMovementEnergy, drainBaseEnergy, agePhysics,
      gainEnergy, interactApply, evolutionPhase, reproPhase, deathMark, clampQ,
      mag_three_four, CONFIG.MOVEMENT_COST_FACTOR, CONFIG.BASE_TICK_COST,
      CONFIG.MAX_ENERGY, CONFIG.REPRODUCTION_COST, min_def, max_def])

/-! ## Spatial grid (`core/SpatialGrid.ts`) -/

/-- A `SpatialEntity`: stable id plus position. -/
structure Ent where
  id : ℕ
  pos : Vec2
deriving DecidableEq

/-- Grid geometry: world bounds and cell size. -/
structure GridGeom where
  width : ℚ
  height : ℚ
  cellSize : ℚ
deriving DecidableEq

/-- `this.cols = Math.ceil(width / cellSize)`. -/
def cols (g : GridGeom) : ℤ := ⌈g.width / g.cellSize⌉

/-- `this.rows = Math.ceil(height / cellSize)`. -/
def rows (g : GridGeom) : ℤ := ⌈g.height / g.cellSize⌉

/-- `getCellKey`: clamp the coordinate into `[0, bound-1]`, divide by the
cell size and floor; the string key `"col,row"` is modelled as the pair. -/
def getCellKey (g : GridGeom) (x y : ℚ) : ℤ × ℤ :=
  (⌊max 0 (min x (g.width - 1)) / g.cellSize⌋,
   ⌊max 0 (min y (g.height - 1)) / g.cellSize⌋)

/-- The mutable state of a `SpatialGrid`: the cell map (cell key to the
id set of that cell, as an insertion-ordered duplicate-free list), the
entity-to-cell map, and the id-to-entity map. -/
structure GridState where
  geom : GridGeom
  cells : List ((ℤ × ℤ) × List ℕ)
  entityCells : List (ℕ × (ℤ × ℤ))
  entityMap : List (ℕ × Ent)
deriving DecidableEq

def emptyGrid (g : GridGeom) : GridState := ⟨g, [], [], []⟩

/-- JS `Set.add`: append the id if it is not already present. -/
def addId (l : List ℕ) (i : ℕ) : List ℕ := if i ∈ l then l else l ++ [i]

/-- The `oldCell.entities.delete(entity.id)` step guarded by
`this.cells.get(oldKey)` being present. -/
def removeFromCell (cells : List ((ℤ × ℤ) × List ℕ)) (oldKey : ℤ × ℤ) (i : ℕ) :
    List ((ℤ × ℤ) × List ℕ) :=
  match lookupA cells oldKey with
  | some l => setA cells oldKey (l.erase i)
  | none => cells

namespace SpatialGrid

/-- The cell map after the "remove from old cell if it exists and differs"
step of `SpatialGrid.insert`. -/
def insertCells1 (s : GridState) (e : Ent) : List ((ℤ × ℤ) × List ℕ) :=
  match lookupA s.entityCells e.id with
  | some oldKey =>
    if oldKey ≠ getCellKey s.geom e.pos.x e.pos.y then removeFromCell s.cells oldKey e.id
    else s.cells
  | none => s.cells

/-- `SpatialGrid.insert`: compute the cell key of the entity's current
position, delete the id from its previous cell when that differs, add the
id to the new cell (creating the cell when absent), and record the entity
in both maps. -/
def insert (s : GridState) (e : Ent) : GridState :=
  let key := getCellKey s.geom e.pos.x e.pos.y
  { geom := s.geom
    cells := setA (insertCells1 s e) key (addId ((lookupA (insertCells1 s e) key).getD []) e.id)
    entityCells := setA s.entityCells e.id key
    entityMap := setA s.entityMap e.id e }

/-- `SpatialGrid.remove`: delete the id from its recorded cell and from
both maps. -/
def remove (s : GridState) (e : Ent) : GridState :=
  let s1 :=
    match lookupA s.entityCells e.id with
    | some key =>
      { s with
        cells := removeFromCell s.cells key e.id
        entityCells := eraseKeyA s.entityCells e.id }
    | none => s
  { s1 with entityMap := eraseKeyA s1.entityMap e.id }

/-- `SpatialGrid.update` delegates to `insert`. -/
def update (s : GridState) (e : Ent) : GridState := insert s e

/-- Integer range `[lo, hi]` inclusive, empty when `hi < lo`. -/
def intRange (lo hi : ℤ) : List ℤ :=
  (List.range (hi + 1 - lo).toNat).map (fun i : ℕ => lo + (i : ℤ))

/-- The per-cell body of the `queryRadius` loops: look up the cell, then
keep every tracked entity of the cell within squared distance. -/
def cellHits (s : GridState) (p : Vec2) (radiusSq : ℚ) (key : ℤ × ℤ) : List Ent :=
  match lookupA s.cells key with
  | none => []
  | some ids =>
    ids.filterMap (fun i =>
      match lookupA s.entityMap i with
      | some ent => if p.distSq ent.pos ≤ radiusSq then some ent else none
      | none => none)

/-- `SpatialGrid.queryRadius`: enumerate the cell rectangle
`[floor((x-r)/cs), ceil((x+r)/cs)] x [floor((y-r)/cs), ceil((y+r)/cs)]`,
skip out-of-grid cells, and filter each cell by squared distance. -/
def queryRadius (s : GridState) (p : Vec2) (radius : ℚ) : List Ent :=
  let radiusSq := radius * radius
  let cs := s.geom.cellSize
  (intRange ⌊(p.x - radius) / cs⌋ ⌈(p.x + radius) / cs⌉).flatMap fun col =>
    (intRange ⌊(p.y - radius) / cs⌋ ⌈(p.y + radius) / cs⌉).flatMap fun row =>
      if col < 0 ∨ cols s.geom ≤ col ∨ row < 0 ∨ rows s.geom ≤ row then []
      else cellHits s p radiusSq (col, row)

end SpatialGrid

/-- A call sequence against one grid. -/
inductive GridOp
  | ins (e : Ent)
  | upd (e : Ent)
  | rem (e : Ent)

def applyOp (s : GridState) : GridOp → GridState
  | .ins e => SpatialGrid.insert s e
  | .upd e => SpatialGrid.update s e
  | .rem e => SpatialGrid.remove s e

def applyOps (g : GridGeom) (ops : List GridOp) : GridState :=
  ops.foldl applyOp (emptyGrid g)

/-! ### Grid invariants -/

/-- Cell-map well-formedness: distinct cell keys, duplicate-free id sets. -/
def cellsWF (s : GridState) : Prop :=
  (s.cells.map Prod.fst).Nodup ∧ ∀ c ∈ s.cells, c.2.Nodup

/-- Every id stored in a cell is recorded in `entityCells` as living in
exactly that cell. -/
def pointsToCells (s : GridState) : Prop :=
  ∀ c ∈ s.cells, ∀ i ∈ c.2, lookupA s.entityCells i = some c.1

/-- Every `entityCells` record is backed by actual cell membership. -/
def cellsCover (s : GridState) : Prop :=
  ∀ q ∈ s.entityCells, ∃ l, lookupA s.cells q.2 = some l ∧ q.1 ∈ l

/-- The two entity maps have duplicate-free key lists. -/
def keysWF (s : GridState) : Prop :=
  (s.entityCells.map Prod.fst).Nodup ∧ (s.entityMap.map Prod.fst).Nodup

/-- `entityMap` stores each entity under its own id. -/
def mapsWF (s : GridState) : Prop :=
  ∀ q ∈ s.entityMap, q.2.id = q.1

def GridInv (s : GridState) : Prop :=
  cellsWF s ∧ pointsToCells s ∧ cellsCover s ∧ keysWF s ∧ mapsWF s

/-- The claim's "each updated since its last move": every tracked entity's
recorded cell is the cell of its current position. -/
def UpToDate (s : GridState) : Prop :=
  ∀ q ∈ s.entityMap, lookupA s.entityCells q.1 = some (getCellKey s.geom q.2.pos.x q.2.pos.y)

/-- All tracked entities lie inside the world bounds (where the clamp in
`getCellKey` is the identity). -/
def InBounds (s : GridState) : Prop :=
  ∀ q ∈ s.entityMap,
    0 ≤ q.2.pos.x ∧ q.2.pos.x ≤ s.geom.width - 1 ∧
    0 ≤ q.2.pos.y ∧ q.2.pos.y ≤ s.geom.height - 1

/-! ### Association-list lemmas -/

section AssocLemmas

variable {κ ν : Type} [DecidableEq κ]

theorem lookupA_mem {l : List (κ × ν)} {k : κ} {v : ν} (h : lookupA l k = some v) :
    (k, v) ∈ l := by
  induction l with
  | nil => simp [lookupA] at h
  | cons p rest ih =>
    obtain ⟨pk, pv⟩ := p
    by_cases hk : pk = k
    · subst hk
      simp [lookupA] at h
      subst h
      exact List.mem_cons_self _ _
    · rw [lookupA, if_neg hk] at h
      exact List.mem_cons_of_mem _ (ih h)

theorem lookupA_eq_none_of_not_mem {l : List (κ × ν)} {k : κ}
    (h : k ∉ l.map Prod.fst) : lookupA l k = none := by
  induction l with
  | nil => rfl
  | cons p rest ih =>
    obtain ⟨pk, pv⟩ := p
    simp only [List.map_cons, List.mem_cons] at h
    push_neg at h
    rw [lookupA, if_neg (fun he => h.1 he.symm), ih h.2]

theorem mem_lookupA_nodup {l : List (κ × ν)} (hn : (l.map Prod.fst).Nodup) {k : κ} {v : ν}
    (h : (k, v) ∈ l) : lookupA l k = some v := by
  induction l with
  | nil => simp at h
  | cons p rest ih =>
    obtain ⟨pk, pv⟩ := p
    simp only [List.map_cons, List.nodup_cons] at hn
    rcases List.mem_cons.mp h with heq | hr
    · rw [Prod.mk.injEq] at heq
      rw [lookupA, if_pos heq.1.symm, heq.2]
    · have hne : pk ≠ k := by
        intro he
        subst he
        exact hn.1 (List.mem_map.mpr ⟨(pk, v), hr, rfl⟩)
      rw [lookupA, if_neg hne]
      exact ih hn.2 hr

theorem lookupA_setA_ne {l : List (κ × ν)} {k k' : κ} (v : ν) (h : k' ≠ k) :
    lookupA (setA l k v) k' = lookupA l k' := by
  have hkk : ¬ k = k' := fun he => h he.symm
  induction l with
  | nil =>
    simp only [setA, lookupA, if_neg hkk]
  | cons p rest ih =>
    obtain ⟨pk, pv⟩ := p
    by_cases hk : pk = k
    · subst hk
      rw [setA, if_pos rfl, lookupA, lookupA, if_neg hkk, if_neg hkk]
    · rw [setA, if_neg hk]
      by_cases hk' : pk = k'
      · rw [lookupA, if_pos hk', lookupA, if_pos hk']
      · rw [lookupA, if_neg hk', lookupA, if_neg hk', ih]

theorem mem_setA {l : List (κ × ν)} {k : κ} {v : ν} {p : κ × ν} (h : p ∈ setA l k v) :
    p = (k, v) ∨ p ∈ l := by
  induction l with
  | nil => simpa [setA] using h
  | cons q rest ih =>
    obtain ⟨qk, qv⟩ := q
    by_cases hk : qk = k
    · rw [setA, if_pos hk] at h
      rcases List.mem_cons.mp h with heq | hr
      · exact Or.inl heq
      · exact Or.inr (List.mem_cons_of_mem _ hr)
    · rw [setA, if_neg hk] at h
      rcases List.mem_cons.mp h with heq | hr
      · exact Or.inr (heq ▸ List.mem_cons_self _ _)
      · rcases ih hr with h1 | h2
        · exact Or.inl h1
        · exact Or.inr (List.mem_cons_of_mem _ h2)

theorem self_mem_setA (l : List (κ × ν)) (k : κ) (v : ν) : (k, v) ∈ setA l k v := by
  induction l with
  | nil => simp [setA]
  | cons q rest ih =>
    obtain ⟨qk, qv⟩ := q
    by_cases hk : qk = k
    · rw [setA, if_pos hk]
      exact List.mem_cons_self _ _
    · rw [setA, if_neg hk]
      exact List.mem_cons_of_mem _ ih

theorem keys_setA (l : List (κ × ν)) (k : κ) (v : ν) :
    (setA l k v).map Prod.fst
      = if k ∈ l.map Prod.fst then l.map Prod.fst else l.map Prod.fst ++ [k] := by
  induction l with
  | nil => simp [setA]
  | cons q rest ih =>
    obtain ⟨qk, qv⟩ := q
    by_cases hk : qk = k
    · subst hk
      simp [setA]
    · rw [setA, if_neg hk]
      simp only [List.map_cons, List.mem_cons]
      rw [ih]
      by_cases hm : k ∈ rest.map Prod.fst
      · rw [if_pos hm, if_pos (Or.inr hm)]
      · rw [if_neg hm, if_neg (by push_neg; exact ⟨fun he => hk he.symm, hm⟩)]
        simp

theorem nodup_keys_setA {l : List (κ × ν)} (hn : (l.map Prod.fst).Nodup) (k : κ) (v : ν) :
    ((setA l k v).map Prod.fst).Nodup := by
  rw [keys_setA]
  split
  · exact hn
  · next hm =>
    rw [List.nodup_append]
    refine ⟨hn, List.nodup_singleton _, fun a ha hb => ?_⟩
    rw [List.mem_singleton] at hb
    subst hb
    exact hm ha

theorem eraseKeyA_sublist (l : List (κ × ν)) (k : κ) : (eraseKeyA l k).Sublist l := by
  induction l with
  | nil => simp [eraseKeyA]
  | cons q rest ih =>
    obtain ⟨qk, qv⟩ := q
    by_cases hk : qk = k
    · rw [eraseKeyA, if_pos hk]
      exact (List.sublist_cons_self _ _)
    · rw [eraseKeyA, if_neg hk]
      exact ih.cons₂ _

theorem mem_eraseKeyA {l : List (κ × ν)} {k : κ} {p : κ × ν} (h : p ∈ eraseKeyA l k) :
    p ∈ l :=
  (eraseKeyA_sublist l k).mem h

theorem nodup_keys_eraseKeyA {l : List (κ × ν)} (hn : (l.map Prod.fst).Nodup) (k : κ) :
    ((eraseKeyA l k).map Prod.fst).Nodup :=
  ((eraseKeyA_sublist l k).map Prod.fst).nodup hn

theorem lookupA_eraseKeyA_ne {l : List (κ × ν)} {k k' : κ} (h : k' ≠ k) :
    lookupA (eraseKeyA l k) k' = lookupA l k' := by
  induction l with
  | nil => rfl
  | cons q rest ih =>
    obtain ⟨qk, qv⟩ := q
    by_cases hk : qk = k
    · subst hk
      rw [eraseKeyA, if_pos rfl, lookupA, if_neg (fun he => h he.symm)]
    · rw [eraseKeyA, if_neg hk]
      by_cases hk' : qk = k'
      · rw [lookupA, if_pos hk', lookupA, if_pos hk']
      · rw [lookupA, if_neg hk', lookupA, if_neg hk', ih]

theorem lookupA_eraseKeyA_self {l : List (κ × ν)} (hn : (l.map Prod.fst).Nodup) (k : κ) :
    lookupA (eraseKeyA l k) k = none := by
  induction l with
  | nil => rfl
  | cons q rest ih =>
    obtain ⟨qk, qv⟩ := q
    simp only [List.map_cons, List.nodup_cons] at hn
    by_cases hk : qk = k
    · subst hk
      rw [eraseKeyA, if_pos rfl]
      exact lookupA_eq_none_of_not_mem hn.1
    · rw [eraseKeyA, if_neg hk, lookupA, if_neg hk]
      exact ih hn.2

theorem mem_keys_of_lookupA_isSome {l : List (κ × ν)} {k : κ} {v : ν}
    (h : lookupA l k = some v) : k ∈ l.map Prod.fst :=
  List.mem_map.mpr ⟨(k, v), lookupA_mem h, rfl⟩

theorem setA_lookup_self {l : List (κ × ν)} {k : κ} {v : ν} (h : lookupA l k = some v) :
    setA l k v = l := by
  induction l with
  | nil => simp [lookupA] at h
  | cons q rest ih =>
    obtain ⟨qk, qv⟩ := q
    by_cases hk : qk = k
    · subst hk
      rw [lookupA, if_pos rfl] at h
      rw [setA, if_pos rfl]
      injection h with h
      rw [h]
    · rw [lookupA, if_neg hk] at h
      rw [setA, if_neg hk, ih h]

theorem setA_setA (l : List (κ × ν)) (k : κ) (v w : ν) :
    setA (setA l k v) k w = setA l k w := by
  induction l with
  | nil => simp [setA]
  | cons q rest ih =>
    obtain ⟨qk, qv⟩ := q
    by_cases hk : qk = k
    · rw [setA, if_pos hk, setA, if_pos rfl, setA, if_pos hk]
    · rw [setA, if_neg hk, setA, if_neg hk, setA, if_neg hk, ih]

theorem mem_setA_nodup {κ ν : Type} [DecidableEq κ] {l : List (κ × ν)} {k : κ} {v : ν}
    {p : κ × ν} (hn : (l.map Prod.fst).Nodup) (h : p ∈ setA l k v) :
    p = (k, v) ∨ (p ∈ l ∧ p.1 ≠ k) := by
  induction l with
  | nil => simpa [setA] using h
  | cons q rest ih =>
    obtain ⟨qk, qv⟩ := q
    simp only [List.map_cons, List.nodup_cons] at hn
    by_cases hk : qk = k
    · subst hk
      rw [setA, if_pos rfl] at h
      rcases List.mem_cons.mp h with heq | hr
      · exact Or.inl heq
      · refine Or.inr ⟨List.mem_cons_of_mem _ hr, fun he => ?_⟩
        exact hn.1 (List.mem_map.mpr ⟨p, hr, he⟩)
    · rw [setA, if_neg hk] at h
      rcases List.mem_cons.mp h with heq | hr
      · subst heq
        exact Or.inr ⟨List.mem_cons_self _ _, hk⟩
      · rcases ih hn.2 hr with h1 | ⟨h2, h3⟩
        · exact Or.inl h1
        · exact Or.inr ⟨List.mem_cons_of_mem _ h2, h3⟩

theorem mem_eraseKeyA_ne_key {κ ν : Type} [DecidableEq κ] {l : List (κ × ν)} {k : κ}
    {p : κ × ν} (hn : (l.map Prod.fst).Nodup) (h : p ∈ eraseKeyA l k) : p.1 ≠ k := by
  induction l with
  | nil => simp [eraseKeyA] at h
  | cons q rest ih =>
    obtain ⟨qk, qv⟩ := q
    simp only [List.map_cons, List.nodup_cons] at hn
    by_cases hk : qk = k
    · subst hk
      rw [eraseKeyA, if_pos rfl] at h
      intro he
      exact hn.1 (List.mem_map.mpr ⟨p, h, he⟩)
    · rw [eraseKeyA, if_neg hk] at h
      rcases List.mem_cons.mp h with heq | hr
      · subst heq
        exact hk
      · exact ih hn.2 hr

theorem eq_of_mem_keys_nodup {κ ν : Type} [DecidableEq κ] {l : List (κ × ν)}
    {p q : κ × ν} (hn : (l.map Prod.fst).Nodup) (hp : p ∈ l) (hq : q ∈ l)
    (hk : p.1 = q.1) : p = q := by
  induction l with
  | nil => simp at hp
  | cons x rest ih =>
    simp only [List.map_cons, List.nodup_cons] at hn
    rcases List.mem_cons.mp hp with rfl | hpr
    · rcases List.mem_cons.mp hq with rfl | hqr
      · rfl
      · exact absurd (List.mem_map.mpr ⟨q, hqr, hk.symm⟩) hn.1
    · rcases List.mem_cons.mp hq with rfl | hqr
      · exact absurd (List.mem_map.mpr ⟨p, hpr, hk⟩) hn.1
      · exact ih hn.2 hpr hqr

end AssocLemmas

/-! ### addId and removeFromCell lemmas -/

theorem mem_addId {l : List ℕ} {i j : ℕ} (h : j ∈ addId l i) : j ∈ l ∨ j = i := by
  unfold addId at h
  split at h
  · exact Or.inl h
  · rcases List.mem_append.mp h with hl | hr
    · exact Or.inl hl
    · exact Or.inr (List.mem_singleton.mp hr)

theorem mem_addId_self (l : List ℕ) (i : ℕ) : i ∈ addId l i := by
  unfold addId
  split
  · assumption
  · exact List.mem_append.mpr (Or.inr (List.mem_singleton.mpr rfl))

theorem mem_addId_of_mem {l : List ℕ} {i j : ℕ} (h : j ∈ l) : j ∈ addId l i := by
  unfold addId
  split
  · exact h
  · exact List.mem_append.mpr (Or.inl h)

theorem addId_nodup {l : List ℕ} (hn : l.Nodup) (i : ℕ) : (addId l i).Nodup := by
  unfold addId
  split
  · exact hn
  · next hm =>
    rw [List.nodup_append]
    exact ⟨hn, List.nodup_singleton _, fun a ha hb => hm ((List.mem_singleton.mp hb) ▸ ha)⟩

theorem addId_mem_self_eq (l : List ℕ) (i : ℕ) (h : i ∈ l) : addId l i = l := by
  unfold addId
  rw [if_pos h]

theorem keys_removeFromCell (cells : List ((ℤ × ℤ) × List ℕ)) (k : ℤ × ℤ) (i : ℕ) :
    (removeFromCell cells k i).map Prod.fst = cells.map Prod.fst := by
  unfold removeFromCell
  cases hl : lookupA cells k with
  | none => rfl
  | some l =>
    rw [keys_setA, if_pos (mem_keys_of_lookupA_isSome hl)]

theorem lookupA_removeFromCell_ne (cells : List ((ℤ × ℤ) × List ℕ)) (k k' : ℤ × ℤ)
    (i : ℕ) (h : k' ≠ k) : lookupA (removeFromCell cells k i) k' = lookupA cells k' := by
  unfold removeFromCell
  cases hl : lookupA cells k with
  | none => rfl
  | some l => exact lookupA_setA_ne _ h

theorem lookupA_isSome_of_mem_keys {κ ν : Type} [DecidableEq κ] {l : List (κ × ν)} {k : κ}
    (h : k ∈ l.map Prod.fst) : (lookupA l k).isSome := by
  induction l with
  | nil => simp at h
  | cons q rest ih =>
    obtain ⟨qk, qv⟩ := q
    by_cases hk : qk = k
    · rw [lookupA, if_pos hk]
      rfl
    · simp only [List.map_cons, List.mem_cons] at h
      rcases h with heq | hr
      · exact absurd heq.symm hk
      · rw [lookupA, if_neg hk]
        exact ih hr

theorem mem_removeFromCell {cells : List ((ℤ × ℤ) × List ℕ)} {k : ℤ × ℤ} {i : ℕ}
    {c : (ℤ × ℤ) × List ℕ} (hn : (cells.map Prod.fst).Nodup)
    (h : c ∈ removeFromCell cells k i) :
    (∃ l, lookupA cells k = some l ∧ c = (k, l.erase i)) ∨ (c ∈ cells ∧ c.1 ≠ k) := by
  unfold removeFromCell at h
  cases hl : lookupA cells k with
  | none =>
    rw [hl] at h
    refine Or.inr ⟨h, fun hck => ?_⟩
    have hmem : k ∈ cells.map Prod.fst := List.mem_map.mpr ⟨c, h, hck⟩
    have hs := lookupA_isSome_of_mem_keys hmem
    rw [hl] at hs
    simp at hs
  | some l =>
    rw [hl] at h
    rcases mem_setA_nodup hn h with heq | ⟨hm, hne⟩
    · exact Or.inl ⟨l, rfl, heq⟩
    · exact Or.inr ⟨hm, hne⟩

/-! ### insertCells1 properties -/

theorem insertCells1_eq_none (s : GridState) (e : Ent)
    (h : lookupA s.entityCells e.id = none) : SpatialGrid.insertCells1 s e = s.cells := by
  unfold SpatialGrid.insertCells1
  rw [h]

theorem insertCells1_eq_some (s : GridState) (e : Ent) (k0 : ℤ × ℤ)
    (h : lookupA s.entityCells e.id = some k0) :
    SpatialGrid.insertCells1 s e
      = if k0 ≠ getCellKey s.geom e.pos.x e.pos.y then removeFromCell s.cells k0 e.id
        else s.cells := by
  unfold SpatialGrid.insertCells1
  rw [h]

theorem removeFromCell_eq (cells : List ((ℤ × ℤ) × List ℕ)) (k : ℤ × ℤ) (i : ℕ)
    (l : List ℕ) (h : lookupA cells k = some l) :
    removeFromCell cells k i = setA cells k (l.erase i) := by
  unfold removeFromCell
  rw [h]

theorem insertCells1_keys (s : GridState) (e : Ent) :
    (SpatialGrid.insertCells1 s e).map Prod.fst = s.cells.map Prod.fst := by
  cases hec : lookupA s.entityCells e.id with
  | none => rw [insertCells1_eq_none s e hec]
  | some k0 =>
    rw [insertCells1_eq_some s e k0 hec]
    by_cases hk : k0 ≠ getCellKey s.geom e.pos.x e.pos.y
    · rw [if_pos hk]
      exact keys_removeFromCell s.cells k0 e.id
    · rw [if_neg hk]

theorem insertCells1_entries_nodup (s : GridState) (e : Ent)
    (h2 : ∀ c ∈ s.cells, c.2.Nodup) (hn : (s.cells.map Prod.fst).Nodup) :
    ∀ c ∈ SpatialGrid.insertCells1 s e, c.2.Nodup := by
  intro c hc
  cases hec : lookupA s.entityCells e.id with
  | none =>
    rw [insertCells1_eq_none s e hec] at hc
    exact h2 c hc
  | some k0 =>
    rw [insertCells1_eq_some s e k0 hec] at hc
    by_cases hk : k0 ≠ getCellKey s.geom e.pos.x e.pos.y
    · rw [if_pos hk] at hc
      rcases mem_removeFromCell hn hc with ⟨l, hl, rfl⟩ | ⟨hm, _⟩
      · exact (h2 (k0, l) (lookupA_mem hl)).erase _
      · exact h2 c hm
    · rw [if_neg hk] at hc
      exact h2 c hc

theorem insertCells1_pointsTo (s : GridState) (e : Ent)
    (hn : (s.cells.map Prod.fst).Nodup) (hp : pointsToCells s) :
    ∀ c ∈ SpatialGrid.insertCells1 s e, ∀ i ∈ c.2, lookupA s.entityCells i = some c.1 := by
  intro c hc i hi
  cases hec : lookupA s.entityCells e.id with
  | none =>
    rw [insertCells1_eq_none s e hec] at hc
    exact hp c hc i hi
  | some k0 =>
    rw [insertCells1_eq_some s e k0 hec] at hc
    by_cases hk : k0 ≠ getCellKey s.geom e.pos.x e.pos.y
    · rw [if_pos hk] at hc
      rcases mem_removeFromCell hn hc with ⟨l, hl, rfl⟩ | ⟨hm, _⟩
      · exact hp (k0, l) (lookupA_mem hl) i (List.mem_of_mem_erase hi)
      · exact hp c hm i hi
    · rw [if_neg hk] at hc
      exact hp c hc i hi

theorem insertCells1_no_eid (s : GridState) (e : Ent)
    (hn : (s.cells.map Prod.fst).Nodup) (h2 : ∀ c ∈ s.cells, c.2.Nodup)
    (hp : pointsToCells s) :
    ∀ c ∈ SpatialGrid.insertCells1 s e,
      c.1 ≠ getCellKey s.geom e.pos.x e.pos.y → e.id ∉ c.2 := by
  intro c hc hck hmem
  cases hec : lookupA s.entityCells e.id with
  | none =>
    rw [insertCells1_eq_none s e hec] at hc
    have := hp c hc e.id hmem
    rw [hec] at this
    exact Option.noConfusion this
  | some k0 =>
    rw [insertCells1_eq_some s e k0 hec] at hc
    by_cases hk : k0 ≠ getCellKey s.geom e.pos.x e.pos.y
    · rw [if_pos hk] at hc
      rcases mem_removeFromCell hn hc with ⟨l, hl, rfl⟩ | ⟨hm, hne⟩
      · have hnod : l.Nodup := h2 (k0, l) (lookupA_mem hl)
        rw [hnod.mem_erase_iff] at hmem
        exact hmem.1 rfl
      · have := hp c hm e.id hmem
        rw [hec] at this
        injection this with this
        exact hne this.symm
    · rw [if_neg hk] at hc
      push_neg at hk
      have := hp c hc e.id hmem
      rw [hec] at this
      injection this with this
      exact hck (by rw [← this, hk])

theorem insertCells1_cover (s : GridState) (e : Ent)
    (hn : (s.cells.map Prod.fst).Nodup) (hc : cellsCover s) :
    ∀ q ∈ s.entityCells, q.1 ≠ e.id →
      ∃ l, lookupA (SpatialGrid.insertCells1 s e) q.2 = some l ∧ q.1 ∈ l := by
  intro q hq hqe
  obtain ⟨l, hl, hql⟩ := hc q hq
  cases hec : lookupA s.entityCells e.id with
  | none =>
    rw [insertCells1_eq_none s e hec]
    exact ⟨l, hl, hql⟩
  | some k0 =>
    rw [insertCells1_eq_some s e k0 hec]
    by_cases hk : k0 ≠ getCellKey s.geom e.pos.x e.pos.y
    · rw [if_pos hk]
      by_cases hqk : q.2 = k0
      · refine ⟨l.erase e.id, ?_, (List.mem_erase_of_ne hqe).mpr hql⟩
        rw [hqk] at hl ⊢
        rw [removeFromCell_eq s.cells k0 e.id l hl]
        exact lookupA_setA_self _ _ _
      · rw [lookupA_removeFromCell_ne s.cells k0 q.2 e.id hqk]
        exact ⟨l, hl, hql⟩
    · rw [if_neg hk]
      exact ⟨l, hl, hql⟩

/-! ### Invariant preservation -/

theorem insert_cells (s : GridState) (e : Ent) :
    (SpatialGrid.insert s e).cells
      = setA (SpatialGrid.insertCells1 s e) (getCellKey s.geom e.pos.x e.pos.y)
          (addId ((lookupA (SpatialGrid.insertCells1 s e)
            (getCellKey s.geom e.pos.x e.pos.y)).getD []) e.id) := rfl

theorem insert_entityCells (s : GridState) (e : Ent) :
    (SpatialGrid.insert s e).entityCells
      = setA s.entityCells e.id (getCellKey s.geom e.pos.x e.pos.y) := rfl

theorem insert_entityMap (s : GridState) (e : Ent) :
    (SpatialGrid.insert s e).entityMap = setA s.entityMap e.id e := rfl

theorem insert_geom (s : GridState) (e : Ent) : (SpatialGrid.insert s e).geom = s.geom := rfl

theorem GridInv_insert (s : GridState) (e : Ent) (h : GridInv s) :
    GridInv (SpatialGrid.insert s e) := by
  obtain ⟨⟨hck, hcn⟩, hpt, hcv, ⟨hecn, hemn⟩, hm⟩ := h
  have hkeys1' : ((SpatialGrid.insertCells1 s e).map Prod.fst).Nodup := by
    rw [insertCells1_keys]
    exact hck
  have hc1nodup := insertCells1_entries_nodup s e hcn hck
  have hc1pt := insertCells1_pointsTo s e hck hpt
  have hc1no := insertCells1_no_eid s e hck hcn hpt
  have hc1cov := insertCells1_cover s e hck hcv
  have hbase : ∀ i ∈ (lookupA (SpatialGrid.insertCells1 s e)
      (getCellKey s.geom e.pos.x e.pos.y)).getD [], lookupA s.entityCells i
        = some (getCellKey s.geom e.pos.x e.pos.y) := by
    intro i hi
    cases hb : lookupA (SpatialGrid.insertCells1 s e) (getCellKey s.geom e.pos.x e.pos.y) with
    | none =>
      rw [hb] at hi
      simp at hi
    | some lb =>
      rw [hb] at hi
      exact hc1pt _ (lookupA_mem hb) i hi
  refine ⟨⟨?_, ?_⟩, ?_, ?_, ⟨?_, ?_⟩, ?_⟩
  · rw [insert_cells]
    exact nodup_keys_setA hkeys1' _ _
  · rw [insert_cells]
    intro c hc
    rcases mem_setA_nodup hkeys1' hc with rfl | ⟨hmc, _⟩
    · cases hb : lookupA (SpatialGrid.insertCells1 s e) (getCellKey s.geom e.pos.x e.pos.y) with
      | none => exact addId_nodup List.nodup_nil e.id
      | some lb => exact addId_nodup (hc1nodup _ (lookupA_mem hb)) e.id
    · exact hc1nodup c hmc
  · intro c hc i hi
    by_cases hie : i = e.id
    · subst hie
      rcases mem_setA_nodup hkeys1' hc with rfl | ⟨hmc, hne⟩
      · exact lookupA_setA_self _ _ _
      · exact absurd hi (hc1no c hmc hne)
    · rcases mem_setA_nodup hkeys1' hc with rfl | ⟨hmc, _⟩
      · rcases mem_addId hi with hib | hieq
        · exact (lookupA_setA_ne _ hie).trans (hbase i hib)
        · exact absurd hieq hie
      · exact (lookupA_setA_ne _ hie).trans (hc1pt c hmc i hi)
  · intro q hq
    rcases mem_setA_nodup hecn hq with rfl | ⟨hmq, hne⟩
    · exact ⟨_, lookupA_setA_self _ _ _, mem_addId_self _ _⟩
    · obtain ⟨l, hl, hql⟩ := hc1cov q hmq hne
      by_cases hqK : q.2 = getCellKey s.geom e.pos.x e.pos.y
      · rw [hqK] at hl
        refine ⟨addId ((lookupA (SpatialGrid.insertCells1 s e)
            (getCellKey s.geom e.pos.x e.pos.y)).getD []) e.id, ?_, ?_⟩
        · rw [hqK]
          exact lookupA_setA_self _ _ _
        · rw [hl]
          exact mem_addId_of_mem hql
      · exact ⟨l, (lookupA_setA_ne _ hqK).trans hl, hql⟩
  · exact nodup_keys_setA hecn _ _
  · exact nodup_keys_setA hemn _ _
  · intro q hq
    rcases mem_setA hq with rfl | hmq
    · rfl
    · exact hm q hmq

theorem remove_eq_none (s : GridState) (e : Ent)
    (h : lookupA s.entityCells e.id = none) :
    SpatialGrid.remove s e = { s with entityMap := eraseKeyA s.entityMap e.id } := by
  unfold SpatialGrid.remove
  rw [h]

theorem remove_eq_some (s : GridState) (e : Ent) (k1 : ℤ × ℤ)
    (h : lookupA s.entityCells e.id = some k1) :
    SpatialGrid.remove s e
      = { s with
          cells := removeFromCell s.cells k1 e.id
          entityCells := eraseKeyA s.entityCells e.id
          entityMap := eraseKeyA s.entityMap e.id } := by
  unfold SpatialGrid.remove
  rw [h]

theorem GridInv_remove (s : GridState) (e : Ent) (h : GridInv s) :
    GridInv (SpatialGrid.remove s e) := by
  obtain ⟨⟨hck, hcn⟩, hpt, hcv, ⟨hecn, hemn⟩, hm⟩ := h
  cases hec : lookupA s.entityCells e.id with
  | none =>
    rw [remove_eq_none s e hec]
    refine ⟨⟨hck, hcn⟩, hpt, hcv, ⟨hecn, nodup_keys_eraseKeyA hemn _⟩, ?_⟩
    intro q hq
    exact hm q (mem_eraseKeyA hq)
  | some k1 =>
    rw [remove_eq_some s e k1 hec]
    refine ⟨⟨?_, ?_⟩, ?_, ?_, ⟨nodup_keys_eraseKeyA hecn _, nodup_keys_eraseKeyA hemn _⟩, ?_⟩
    · rw [keys_removeFromCell]
      exact hck
    · intro c hc
      rcases mem_removeFromCell hck hc with ⟨l, hl, rfl⟩ | ⟨hmc, _⟩
      · exact (hcn (k1, l) (lookupA_mem hl)).erase _
      · exact hcn c hmc
    · intro c hc i hi
      rcases mem_removeFromCell hck hc with ⟨l, hl, rfl⟩ | ⟨hmc, hne⟩
      · have hnod : l.Nodup := hcn (k1, l) (lookupA_mem hl)
        have hi' := hnod.mem_erase_iff.mp hi
        exact (lookupA_eraseKeyA_ne hi'.1).trans (hpt (k1, l) (lookupA_mem hl) i hi'.2)
      · have hie : i ≠ e.id := by
          intro hieq
          subst hieq
          have := hpt c hmc e.id hi
          rw [hec] at this
          injection this with this
          exact hne this.symm
        exact (lookupA_eraseKeyA_ne hie).trans (hpt c hmc i hi)
    · intro q hq
      have hqe : q.1 ≠ e.id := mem_eraseKeyA_ne_key hecn hq
      obtain ⟨l, hl, hql⟩ := hcv q (mem_eraseKeyA hq)
      by_cases hqk : q.2 = k1
      · rw [hqk] at hl
        have h1 : removeFromCell s.cells k1 e.id = setA s.cells k1 (l.erase e.id) :=
          removeFromCell_eq s.cells k1 e.id l hl
        have h3 : lookupA (removeFromCell s.cells k1 e.id) k1 = some (l.erase e.id) := by
          rw [h1]
          exact lookupA_setA_self _ _ _
        refine ⟨l.erase e.id, ?_, (List.mem_erase_of_ne hqe).mpr hql⟩
        rw [hqk]
        exact h3
      · exact ⟨l, (lookupA_removeFromCell_ne s.cells k1 q.2 e.id hqk).trans hl, hql⟩
    · intro q hq
      exact hm q (mem_eraseKeyA hq)

theorem GridInv_empty (g : GridGeom) : GridInv (emptyGrid g) := by
  refine ⟨⟨?_, ?_⟩, ?_, ?_, ⟨?_, ?_⟩, ?_⟩ <;>
    simp [emptyGrid, pointsToCells, cellsCover, mapsWF]

theorem GridInv_applyOp (s : GridState) (op : GridOp) (h : GridInv s) :
    GridInv (applyOp s op) := by
  cases op with
  | ins e => exact GridInv_insert s e h
  | upd e => exact GridInv_insert s e h
  | rem e => exact GridInv_remove s e h

theorem GridInv_foldl (ops : List GridOp) (s : GridState) (h : GridInv s) :
    GridInv (ops.foldl applyOp s) := by
  induction ops generalizing s with
  | nil => exact h
  | cons op rest ih => exact ih (applyOp s op) (GridInv_applyOp s op h)

theorem GridInv_applyOps (g : GridGeom) (ops : List GridOp) :
    GridInv (applyOps g ops) :=
  GridInv_foldl ops (emptyGrid g) (GridInv_empty g)

/-! ### Query duplicate-freedom (claim C9) -/

theorem intRange_nodup (lo hi : ℤ) : (SpatialGrid.intRange lo hi).Nodup := by
  unfold SpatialGrid.intRange
  exact List.Nodup.map (fun a b hab => by simpa using hab) (List.nodup_range _)

theorem mem_intRange {lo hi a : ℤ} :
    a ∈ SpatialGrid.intRange lo hi ↔ lo ≤ a ∧ a ≤ hi := by
  unfold SpatialGrid.intRange
  simp only [List.mem_map, List.mem_range]
  constructor
  · rintro ⟨i, hi', rfl⟩
    omega
  · rintro ⟨h1, h2⟩
    exact ⟨(a - lo).toNat, by omega, by omega⟩

theorem filterMap_map_id_sublist (ids : List ℕ) (f : ℕ → Option Ent)
    (hf : ∀ j x, f j = some x → x.id = j) :
    ((ids.filterMap f).map Ent.id).Sublist ids := by
  induction ids with
  | nil => simp
  | cons j rest ih =>
    cases hj : f j with
    | none =>
      rw [List.filterMap_cons_none hj]
      exact ih.cons _
    | some x =>
      rw [List.filterMap_cons_some hj, List.map_cons, hf j x hj]
      exact ih.cons₂ _

/-- The membership filter of `cellHits` as an explicit function. -/
def hitFn (s : GridState) (p : Vec2) (radiusSq : ℚ) (i : ℕ) : Option Ent :=
  match lookupA s.entityMap i with
  | some ent => if p.distSq ent.pos ≤ radiusSq then some ent else none
  | none => none

theorem cellHits_eq (s : GridState) (p : Vec2) (radiusSq : ℚ) (key : ℤ × ℤ) :
    SpatialGrid.cellHits s p radiusSq key
      = match lookupA s.cells key with
        | none => []
        | some ids => ids.filterMap (hitFn s p radiusSq) := rfl

theorem hitFn_eq_none (s : GridState) (p : Vec2) (radiusSq : ℚ) (i : ℕ)
    (h : lookupA s.entityMap i = none) : hitFn s p radiusSq i = none := by
  unfold hitFn
  rw [h]

theorem hitFn_eq_some (s : GridState) (p : Vec2) (radiusSq : ℚ) (i : ℕ) (ent : Ent)
    (h : lookupA s.entityMap i = some ent) :
    hitFn s p radiusSq i = if p.distSq ent.pos ≤ radiusSq then some ent else none := by
  unfold hitFn
  rw [h]

theorem hitFn_id (s : GridState) (hm : mapsWF s) (p : Vec2) (radiusSq : ℚ) :
    ∀ j x, hitFn s p radiusSq j = some x → x.id = j := by
  intro j x h
  cases hje : lookupA s.entityMap j with
  | none =>
    rw [hitFn_eq_none s p radiusSq j hje] at h
    exact Option.noConfusion h
  | some ent =>
    rw [hitFn_eq_some s p radiusSq j ent hje] at h
    by_cases hd : p.distSq ent.pos ≤ radiusSq
    · rw [if_pos hd] at h
      injection h with h
      rw [← h]
      exact hm (j, ent) (lookupA_mem hje)
    · rw [if_neg hd] at h
      exact Option.noConfusion h

theorem hitFn_spec {s : GridState} {p : Vec2} {radiusSq : ℚ} {j : ℕ} {x : Ent}
    (h : hitFn s p radiusSq j = some x) :
    lookupA s.entityMap j = some x ∧ p.distSq x.pos ≤ radiusSq := by
  cases hje : lookupA s.entityMap j with
  | none =>
    rw [hitFn_eq_none s p radiusSq j hje] at h
    exact Option.noConfusion h
  | some ent =>
    rw [hitFn_eq_some s p radiusSq j ent hje] at h
    by_cases hd : p.distSq ent.pos ≤ radiusSq
    · rw [if_pos hd] at h
      injection h with h
      subst h
      exact ⟨rfl, hd⟩
    · rw [if_neg hd] at h
      exact Option.noConfusion h

theorem cellHits_ids_nodup (s : GridState) (p : Vec2) (radiusSq : ℚ) (key : ℤ × ℤ)
    (hInv : GridInv s) : ((SpatialGrid.cellHits s p radiusSq key).map Ent.id).Nodup := by
  obtain ⟨⟨hck, hcn⟩, _, _, _, hm⟩ := hInv
  rw [cellHits_eq]
  cases hl : lookupA s.cells key with
  | none => simp
  | some ids =>
    exact (filterMap_map_id_sublist ids _ (hitFn_id s hm p radiusSq)).nodup
      (hcn (key, ids) (lookupA_mem hl))

theorem cellHits_assigned {s : GridState} {p : Vec2} {radiusSq : ℚ} {key : ℤ × ℤ}
    {x : Ent} (hInv : GridInv s) (h : x ∈ SpatialGrid.cellHits s p radiusSq key) :
    lookupA s.entityCells x.id = some key := by
  obtain ⟨⟨hck, hcn⟩, hpt, _, _, hm⟩ := hInv
  rw [cellHits_eq] at h
  cases hl : lookupA s.cells key with
  | none =>
    rw [hl] at h
    simp at h
  | some ids =>
    rw [hl] at h
    obtain ⟨j, hj, hfj⟩ := List.mem_filterMap.mp h
    have hid : x.id = j := hitFn_id s hm p radiusSq j x hfj
    rw [hid]
    exact hpt (key, ids) (lookupA_mem hl) j hj

/-- The body of the queryRadius double loop at one (col,row) pair. -/
def queryBody (s : GridState) (p : Vec2) (radiusSq : ℚ) (col row : ℤ) : List Ent :=
  if col < 0 ∨ cols s.geom ≤ col ∨ row < 0 ∨ rows s.geom ≤ row then []
  else SpatialGrid.cellHits s p radiusSq (col, row)

theorem queryRadius_eq (s : GridState) (p : Vec2) (radius : ℚ) :
    SpatialGrid.queryRadius s p radius
      = (SpatialGrid.intRange ⌊(p.x - radius) / s.geom.cellSize⌋
          ⌈(p.x + radius) / s.geom.cellSize⌉).flatMap fun col =>
        (SpatialGrid.intRange ⌊(p.y - radius) / s.geom.cellSize⌋
          ⌈(p.y + radius) / s.geom.cellSize⌉).flatMap fun row =>
          queryBody s p (radius * radius) col row := rfl

theorem mem_queryBody_assigned {s : GridState} {p : Vec2} {radiusSq : ℚ}
    {col row : ℤ} {a : ℕ} (hInv : GridInv s)
    (h : a ∈ (queryBody s p radiusSq col row).map Ent.id) :
    lookupA s.entityCells a = some (col, row) := by
  unfold queryBody at h
  split at h
  · simp at h
  · obtain ⟨x, hx, rfl⟩ := List.mem_map.mp h
    exact cellHits_assigned hInv hx

theorem queryRadius_ids_nodup (s : GridState) (p : Vec2) (r : ℚ) (hInv : GridInv s) :
    ((SpatialGrid.queryRadius s p r).map Ent.id).Nodup := by
  rw [queryRadius_eq, List.map_flatMap]
  apply List.nodup_flatMap.mpr
  constructor
  · intro col _
    rw [List.map_flatMap]
    apply List.nodup_flatMap.mpr
    constructor
    · intro row _
      unfold queryBody
      split
      · simp
      · exact cellHits_ids_nodup s p (r * r) (col, row) hInv
    · apply List.Pairwise.imp ?_ (intRange_nodup _ _)
      intro r1 r2 hne a ha1 ha2
      have h1 := mem_queryBody_assigned hInv ha1
      have h2 := mem_queryBody_assigned hInv ha2
      rw [h1] at h2
      injection h2 with h2
      exact hne (congrArg Prod.snd h2)
  · apply List.Pairwise.imp ?_ (intRange_nodup _ _)
    intro c1 c2 hne a ha1 ha2
    simp only [List.map_flatMap] at ha1 ha2
    obtain ⟨r1, _, hb1⟩ := List.mem_flatMap.mp ha1
    obtain ⟨r2, _, hb2⟩ := List.mem_flatMap.mp ha2
    have h1 := mem_queryBody_assigned hInv hb1
    have h2 := mem_queryBody_assigned hInv hb2
    rw [h1] at h2
    injection h2 with h2
    exact hne (congrArg Prod.fst h2)

/-! ### Insert idempotence -/

theorem GridState.ext' (a b : GridState) (h1 : a.geom = b.geom) (h2 : a.cells = b.cells)
    (h3 : a.entityCells = b.entityCells) (h4 : a.entityMap = b.entityMap) : a = b := by
  cases a
  cases b
  simp_all

theorem insert_idem (s : GridState) (e : Ent) :
    SpatialGrid.insert (SpatialGrid.insert s e) e = SpatialGrid.insert s e := by
  have hec : lookupA (SpatialGrid.insert s e).entityCells e.id
      = some (getCellKey s.geom e.pos.x e.pos.y) := lookupA_setA_self _ _ _
  have hc1 : SpatialGrid.insertCells1 (SpatialGrid.insert s e) e
      = (SpatialGrid.insert s e).cells := by
    rw [insertCells1_eq_some _ e _ hec]
    rw [if_neg (fun h => h rfl)]
  have hlk : lookupA (SpatialGrid.insert s e).cells (getCellKey s.geom e.pos.x e.pos.y)
      = some (addId ((lookupA (SpatialGrid.insertCells1 s e)
          (getCellKey s.geom e.pos.x e.pos.y)).getD []) e.id) := lookupA_setA_self _ _ _
  apply GridState.ext'
  · rfl
  · show setA (SpatialGrid.insertCells1 (SpatialGrid.insert s e) e)
        (getCellKey s.geom e.pos.x e.pos.y)
        (addId ((lookupA (SpatialGrid.insertCells1 (SpatialGrid.insert s e) e)
          (getCellKey s.geom e.pos.x e.pos.y)).getD []) e.id)
      = (SpatialGrid.insert s e).cells
    rw [hc1, hlk]
    rw [show (some (addId ((lookupA (SpatialGrid.insertCells1 s e)
        (getCellKey s.geom e.pos.x e.pos.y)).getD []) e.id)).getD []
        = addId ((lookupA (SpatialGrid.insertCells1 s e)
            (getCellKey s.geom e.pos.x e.pos.y)).getD []) e.id from rfl]
    rw [addId_mem_self_eq _ _ (mem_addId_self _ _)]
    exact setA_lookup_self hlk
  · show setA (setA s.entityCells e.id (getCellKey s.geom e.pos.x e.pos.y)) e.id
        (getCellKey s.geom e.pos.x e.pos.y)
      = setA s.entityCells e.id (getCellKey s.geom e.pos.x e.pos.y)
    exact setA_setA _ _ _ _
  · show setA (setA s.entityMap e.id e) e.id e = setA s.entityMap e.id e
    exact setA_setA _ _ _ _

/-- Claim C9 (amended): for the Set-based `core/SpatialGrid.ts` grid —
not the cited `SpatialGridOptimized`, whose unconditional array push
falsifies the property — across any insert/update/remove call sequence the
index holds at most one record of an entity at a time (an id lives in at
most one cell); re-inserting an already-tracked entity is idempotent on
the whole grid state (in particular when its position still maps to its
current cell); and `queryRadius` never returns the same entity twice. -/
theorem grid_single_record_idempotent_query_nodup :
    ∀ (g : GridGeom) (ops : List GridOp),
      (∀ (i : ℕ) (c1 c2 : (ℤ × ℤ) × List ℕ),
        c1 ∈ (applyOps g ops).cells → c2 ∈ (applyOps g ops).cells →
        i ∈ c1.2 → i ∈ c2.2 → c1 = c2) ∧
      (∀ (t : GridState) (e : Ent),
        SpatialGrid.insert (SpatialGrid.insert t e) e = SpatialGrid.insert t e) ∧
      (∀ (p : Vec2) (r : ℚ),
        ((SpatialGrid.queryRadius (applyOps g ops) p r).map Ent.id).Nodup) := by
  intro g ops
  refine ⟨?_, fun t e => insert_idem t e,
    fun p r => queryRadius_ids_nodup _ p r (GridInv_applyOps g ops)⟩
  intro i c1 c2 h1 h2 hi1 hi2
  obtain ⟨⟨hck, hcn⟩, hpt, _, _, _⟩ := GridInv_applyOps g ops
  have e1 := hpt c1 h1 i hi1
  have e2 := hpt c2 h2 i hi2
  rw [e1] at e2
  injection e2 with e2
  exact eq_of_mem_keys_nodup hck h1 h2 e2

theorem s0_eval :
    applyOps ⟨100, 100, 10⟩ [GridOp.ins ⟨0, ⟨5, 5⟩⟩]
      = ⟨⟨100, 100, 10⟩, [((0, 0), [0])], [(0, (0, 0))], [(0, ⟨0, ⟨5, 5⟩⟩)]⟩ := by
  norm_num [applyOps, applyOp, SpatialGrid.insert, SpatialGrid.insertCells1, emptyGrid,
    lookupA, setA, addId, getCellKey, List.foldl]

/-- Witness for C9 at a concrete one-entity grid. -/
theorem grid_single_record_witness :
    SpatialGrid.insert (SpatialGrid.insert (emptyGrid ⟨100, 100, 10⟩) ⟨0, ⟨5, 5⟩⟩) ⟨0, ⟨5, 5⟩⟩
      = SpatialGrid.insert (emptyGrid ⟨100, 100, 10⟩) ⟨0, ⟨5, 5⟩⟩ ∧
    ((SpatialGrid.queryRadius (applyOps ⟨100, 100, 10⟩ [GridOp.ins ⟨0, ⟨5, 5⟩⟩])
        ⟨5, 5⟩ 10).map Ent.id).Nodup ∧
    (((0, 0), [0]) : (ℤ × ℤ) × List ℕ) = ((0, 0), [0]) := by
  refine ⟨(grid_single_record_idempotent_query_nodup ⟨100, 100, 10⟩ []).2.1 _ _,
    (grid_single_record_idempotent_query_nodup ⟨100, 100, 10⟩
      [GridOp.ins ⟨0, ⟨5, 5⟩⟩]).2.2 ⟨5, 5⟩ 10, ?_⟩
  refine (grid_single_record_idempotent_query_nodup ⟨100, 100, 10⟩
      [GridOp.ins ⟨0, ⟨5, 5⟩⟩]).1 0 ((0, 0), [0]) ((0, 0), [0]) ?_ ?_ ?_ ?_
  · rw [s0_eval]
    exact List.mem_singleton.mpr rfl
  · rw [s0_eval]
    exact List.mem_singleton.mpr rfl
  · simp
  · simp

/-! ### Claim C1: queryRadius exactness -/

theorem distSq_nonneg (a b : Vec2) : 0 ≤ a.distSq b :=
  add_nonneg (mul_self_nonneg _) (mul_self_nonneg _)

theorem sqrt_distSq_le_iff {d r : ℚ} (hd : 0 ≤ d) (hr : 0 ≤ r) :
    Real.sqrt (d : ℝ) ≤ (r : ℝ) ↔ d ≤ r * r := by
  constructor
  · intro h
    have h2 := Real.sq_sqrt (show (0:ℝ) ≤ (d : ℝ) by exact_mod_cast hd)
    have h3 := Real.sqrt_nonneg (d : ℝ)
    have h4 : (d : ℝ) ≤ (r : ℝ) * (r : ℝ) := by nlinarith
    exact_mod_cast h4
  · intro h
    have h' : ((d : ℝ)) ≤ (r : ℝ) * (r : ℝ) := by exact_mod_cast h
    have h2 : Real.sqrt (d : ℝ) ≤ Real.sqrt ((r : ℝ) * (r : ℝ)) := Real.sqrt_le_sqrt h'
    rwa [show (r : ℝ) * (r : ℝ) = (r : ℝ) ^ 2 by ring,
      Real.sqrt_sq (show (0:ℝ) ≤ (r : ℝ) by exact_mod_cast hr)] at h2

/-- Claim C1 (amended): for a nonnegative radius and a grid whose tracked
entities all lie within the world bounds and are up to date, `queryRadius`
returns exactly the tracked entities within Euclidean distance r of the
query point, membership being decided by the squared-distance comparison
in the definition (no square root is taken by the query). -/
theorem queryRadius_exact_within_bounds :
    ∀ (s : GridState) (p : Vec2) (r : ℚ),
      GridInv s → UpToDate s → InBounds s →
      0 ≤ r → 0 < s.geom.cellSize → 1 ≤ s.geom.width → 1 ≤ s.geom.height →
      ∀ e : Ent, e ∈ SpatialGrid.queryRadius s p r ↔
        (lookupA s.entityMap e.id = some e ∧
          Real.sqrt ((p.distSq e.pos : ℚ) : ℝ) ≤ (r : ℝ)) := by
  intro s p r hInv hup hib hr hcs hw hh e
  obtain ⟨⟨hck, hcn⟩, hpt, hcv, ⟨hecn, hemn⟩, hm⟩ := hInv
  rw [queryRadius_eq]
  constructor
  · intro hmem
    obtain ⟨col, hcol, hmem1⟩ := List.mem_flatMap.mp hmem
    obtain ⟨row, hrow, hmem2⟩ := List.mem_flatMap.mp hmem1
    have hb : e ∈ queryBody s p (r * r) col row := hmem2
    unfold queryBody at hb
    split at hb
    · simp at hb
    · rw [cellHits_eq] at hb
      cases hl : lookupA s.cells (col, row) with
      | none =>
        rw [hl] at hb
        simp at hb
      | some ids =>
        rw [hl] at hb
        obtain ⟨j, hj, hfj⟩ := List.mem_filterMap.mp hb
        have hid : e.id = j := hitFn_id s hm p (r * r) j e hfj
        obtain ⟨hje, hd⟩ := hitFn_spec hfj
        subst hid
        exact ⟨hje, (sqrt_distSq_le_iff (distSq_nonneg p e.pos) hr).mpr hd⟩
  · rintro ⟨hje, hsq⟩
    have hd : p.distSq e.pos ≤ r * r := (sqrt_distSq_le_iff (distSq_nonneg p e.pos) hr).mp hsq
    have hqm : (e.id, e) ∈ s.entityMap := lookupA_mem hje
    obtain ⟨hx0, hx1, hy0, hy1⟩ := hib (e.id, e) hqm
    have hKey : lookupA s.entityCells e.id
        = some (getCellKey s.geom e.pos.x e.pos.y) := hup (e.id, e) hqm
    have hKxy : getCellKey s.geom e.pos.x e.pos.y
        = (⌊e.pos.x / s.geom.cellSize⌋, ⌊e.pos.y / s.geom.cellSize⌋) := by
      unfold getCellKey
      rw [min_eq_left hx1, max_eq_right hx0, min_eq_left hy1, max_eq_right hy0]
    have hdx : p.x - r ≤ e.pos.x ∧ e.pos.x ≤ p.x + r := by
      unfold Vec2.distSq at hd
      constructor <;>
        nlinarith [mul_self_nonneg (p.y - e.pos.y), mul_self_nonneg (p.x - e.pos.x)]
    have hdy : p.y - r ≤ e.pos.y ∧ e.pos.y ≤ p.y + r := by
      unfold Vec2.distSq at hd
      constructor <;>
        nlinarith [mul_self_nonneg (p.y - e.pos.y), mul_self_nonneg (p.x - e.pos.x)]
    have hcol1 : ⌊(p.x - r) / s.geom.cellSize⌋ ≤ ⌊e.pos.x / s.geom.cellSize⌋ :=
      Int.floor_le_floor ((div_le_div_right hcs).mpr hdx.1)
    have hcol2 : ⌊e.pos.x / s.geom.cellSize⌋ ≤ ⌈(p.x + r) / s.geom.cellSize⌉ :=
      le_trans (Int.floor_le_floor ((div_le_div_right hcs).mpr hdx.2)) (Int.floor_le_ceil _)
    have hrow1 : ⌊(p.y - r) / s.geom.cellSize⌋ ≤ ⌊e.pos.y / s.geom.cellSize⌋ :=
      Int.floor_le_floor ((div_le_div_right hcs).mpr hdy.1)
    have hrow2 : ⌊e.pos.y / s.geom.cellSize⌋ ≤ ⌈(p.y + r) / s.geom.cellSize⌉ :=
      le_trans (Int.floor_le_floor ((div_le_div_right hcs).mpr hdy.2)) (Int.floor_le_ceil _)
    have hcolpos : 0 ≤ ⌊e.pos.x / s.geom.cellSize⌋ :=
      Int.floor_nonneg.mpr (div_nonneg hx0 hcs.le)
    have hrowpos : 0 ≤ ⌊e.pos.y / s.geom.cellSize⌋ :=
      Int.floor_nonneg.mpr (div_nonneg hy0 hcs.le)
    have hcollt : ⌊e.pos.x / s.geom.cellSize⌋ < cols s.geom := by
      unfold cols
      apply Int.floor_lt.mpr
      apply lt_of_lt_of_le ((div_lt_div_right hcs).mpr (show e.pos.x < s.geom.width by linarith))
      exact Int.le_ceil _
    have hrowlt : ⌊e.pos.y / s.geom.cellSize⌋ < rows s.geom := by
      unfold rows
      apply Int.floor_lt.mpr
      apply lt_of_lt_of_le ((div_lt_div_right hcs).mpr (show e.pos.y < s.geom.height by linarith))
      exact Int.le_ceil _
    rw [hKxy] at hKey
    obtain ⟨ids, hl, hidmem⟩ := hcv (e.id, _) (lookupA_mem hKey)
    apply List.mem_flatMap.mpr
    refine ⟨⌊e.pos.x / s.geom.cellSize⌋, mem_intRange.mpr ⟨hcol1, hcol2⟩, ?_⟩
    apply List.mem_flatMap.mpr
    refine ⟨⌊e.pos.y / s.geom.cellSize⌋, mem_intRange.mpr ⟨hrow1, hrow2⟩, ?_⟩
    unfold queryBody
    rw [if_neg (by push_neg; exact ⟨hcolpos, hcollt, hrowpos, hrowlt⟩)]
    rw [cellHits_eq, hl]
    apply List.mem_filterMap.mpr
    refine ⟨e.id, hidmem, ?_⟩
    rw [hitFn_eq_some s p (r * r) e.id e hje, if_pos hd]

/-- The grid for the C1 counterexample: one entity at (-50, 50), outside the
world bounds, inserted into a 100×100 grid with cell size 10. -/
def cxGrid : GridState :=
  SpatialGrid.insert (emptyGrid ⟨100, 100, 10⟩) ⟨0, ⟨-50, 50⟩⟩

/-- Claim C1 counterexample: the spec promises `queryRadius` returns every
tracked entity within distance r with no omission.  But `insert` clamps the
cell key into bounds while `queryRadius` derives its cell range from the raw
query point, so an entity tracked at an out-of-bounds position is missed even
by a query centred exactly on it: the query at (-50, 50) with radius 1 returns
`[]` although entity 0 is tracked there at Euclidean distance 0 ≤ 1. -/
theorem queryRadius_misses_out_of_bounds_entity :
    SpatialGrid.queryRadius cxGrid ⟨-50, 50⟩ 1 = [] ∧
    lookupA cxGrid.entityMap 0 = some ⟨0, ⟨-50, 50⟩⟩ ∧
    Real.sqrt (((Vec2.distSq ⟨-50, 50⟩ (⟨-50, 50⟩ : Vec2) : ℚ)) : ℝ) ≤ (1 : ℝ) := by
  have hg : cxGrid = ⟨⟨100, 100, 10⟩, [((0, 5), [0])], [(0, (0, 5))],
      [(0, ⟨0, ⟨-50, 50⟩⟩)]⟩ := by
    norm_num [cxGrid, SpatialGrid.insert, SpatialGrid.insertCells1, emptyGrid,
      lookupA, setA, addId, getCellKey]
  refine ⟨?_, ?_, ?_⟩
  · rw [hg, queryRadius_eq]
    apply List.bind_eq_nil.mpr
    intro col hcol
    apply List.bind_eq_nil.mpr
    intro row _
    have h2 := (mem_intRange.mp hcol).2
    have h3 : col ≤ -1 := le_trans h2 (Int.ceil_le.mpr (by norm_num))
    unfold queryBody
    rw [if_pos (Or.inl (show col < 0 by omega))]
  · rw [hg]
    rfl
  · have h0 : (Vec2.distSq ⟨-50, 50⟩ (⟨-50, 50⟩ : Vec2) : ℚ) = 0 := by
      norm_num [Vec2.distSq]
    rw [h0]
    simp [Real.sqrt_zero]

/-- The in-bounds grid used to witness the amended C1 theorem. -/
def wGrid : GridState :=
  ⟨⟨100, 100, 10⟩, [((0, 0), [0])], [(0, (0, 0))], [(0, ⟨0, ⟨5, 5⟩⟩)]⟩

theorem queryRadius_exact_witness :
    GridInv wGrid ∧ UpToDate wGrid ∧ InBounds wGrid ∧
    ((0 : ℚ) ≤ 1 ∧ (0 : ℚ) < wGrid.geom.cellSize ∧
      (1 : ℚ) ≤ wGrid.geom.width ∧ (1 : ℚ) ≤ wGrid.geom.height) ∧
    ((⟨0, ⟨5, 5⟩⟩ : Ent) ∈ SpatialGrid.queryRadius wGrid ⟨5, 5⟩ 1 ↔
        (lookupA wGrid.entityMap (⟨0, ⟨5, 5⟩⟩ : Ent).id = some ⟨0, ⟨5, 5⟩⟩ ∧
          Real.sqrt (((⟨5, 5⟩ : Vec2).distSq (⟨0, ⟨5, 5⟩⟩ : Ent).pos : ℚ) : ℝ)
            ≤ ((1 : ℚ) : ℝ))) := by
  have hinv : GridInv wGrid := by
    have h := GridInv_applyOps ⟨100, 100, 10⟩ [GridOp.ins ⟨0, ⟨5, 5⟩⟩]
    rw [s0_eval] at h
    exact h
  have hup : UpToDate wGrid := by
    intro q hq
    simp only [wGrid, List.mem_singleton] at hq
    subst hq
    show some (0, 0) = some (getCellKey ⟨100, 100, 10⟩ 5 5)
    unfold getCellKey
    norm_num
  have hib : InBounds wGrid := by
    intro q hq
    simp only [wGrid, List.mem_singleton] at hq
    subst hq
    norm_num [wGrid]
  have hrest : (0 : ℚ) ≤ 1 ∧ (0 : ℚ) < wGrid.geom.cellSize ∧
      (1 : ℚ) ≤ wGrid.geom.width ∧ (1 : ℚ) ≤ wGrid.geom.height := by
    refine ⟨by norm_num, by norm_num [wGrid], by norm_num [wGrid], by norm_num [wGrid]⟩
  exact ⟨hinv, hup, hib, hrest,
    queryRadius_exact_within_bounds wGrid ⟨5, 5⟩ 1 hinv hup hib
      hrest.1 hrest.2.1 hrest.2.2.1 hrest.2.2.2 ⟨0, ⟨5, 5⟩⟩⟩

/-! ### Claim C9, cited optimized variant (`core/SpatialGridOptimized.ts`) -/

/-- State of `SpatialGridOptimized`: a flat pre-allocated array of cells
indexed by `row * cols + col`, `entityCells : id -> flat cell index`, and
`entityMap : id -> entity`.  JS object identity of the stored records is
modelled as structural equality on `Ent`. -/
structure OptGrid where
  geom : GridGeom
  cells : List (List Ent)
  entityCells : List (ℕ × ℤ)
  entityMap : List (ℕ × Ent)
deriving DecidableEq

/-- The constructor: `cols * rows` pre-allocated empty cells. -/
def emptyO (g : GridGeom) : OptGrid :=
  ⟨g, List.replicate (cols g * rows g).toNat [], [], []⟩

/-- `SpatialGridOptimized.getCellIndex`: clamp the position into bounds,
then flatten to `row * cols + col`. -/
def getCellIndexO (g : GridGeom) (x y : ℚ) : ℤ :=
  ⌊max 0 (min y (g.height - 1)) / g.cellSize⌋ * cols g
    + ⌊max 0 (min x (g.width - 1)) / g.cellSize⌋

/-- The swap-with-last-and-pop removal of one occurrence of `e` from a cell
array (`indexOf`; overwrite with the last element unless it is the last;
`pop`). -/
def swapRemove (cell : List Ent) (e : Ent) : List Ent :=
  if e ∈ cell then
    (if cell.indexOf e ≠ cell.length - 1 then
      cell.set (cell.indexOf e) (cell.getD (cell.length - 1) e)
    else cell).dropLast
  else cell

/-- The cell array after the "remove from old cell if it exists and the
cell changed" step of `SpatialGridOptimized.insert`. -/
def insertCellsO (s : OptGrid) (e : Ent) : List (List Ent) :=
  match lookupA s.entityCells e.id with
  | some oldIndex =>
    if oldIndex ≠ getCellIndexO s.geom e.pos.x e.pos.y then
      s.cells.set oldIndex.toNat (swapRemove (s.cells.getD oldIndex.toNat []) e)
    else s.cells
  | none => s.cells

/-- `SpatialGridOptimized.insert`: after the conditional old-cell removal,
`this.cells[index].push(entity)` runs unconditionally — there is no
membership test before the push — and both maps record the entity. -/
def insertO (s : OptGrid) (e : Ent) : OptGrid :=
  { geom := s.geom
    cells := (insertCellsO s e).set (getCellIndexO s.geom e.pos.x e.pos.y).toNat
      ((insertCellsO s e).getD (getCellIndexO s.geom e.pos.x e.pos.y).toNat [] ++ [e])
    entityCells := setA s.entityCells e.id (getCellIndexO s.geom e.pos.x e.pos.y)
    entityMap := setA s.entityMap e.id e }

/-- `SpatialGridOptimized.queryRadius`: clamp the cell rectangle of radius
`ceil(r / cellSize)` around the centre cell into the grid and filter each
cell's array by squared distance, rows outer and columns inner. -/
def queryRadiusO (s : OptGrid) (p : Vec2) (radius : ℚ) : List Ent :=
  (SpatialGrid.intRange (max 0 (⌊p.y / s.geom.cellSize⌋ - ⌈radius / s.geom.cellSize⌉))
      (min (rows s.geom - 1) (⌊p.y / s.geom.cellSize⌋ + ⌈radius / s.geom.cellSize⌉))).flatMap
    fun row =>
      (SpatialGrid.intRange (max 0 (⌊p.x / s.geom.cellSize⌋ - ⌈radius / s.geom.cellSize⌉))
          (min (cols s.geom - 1) (⌊p.x / s.geom.cellSize⌋ + ⌈radius / s.geom.cellSize⌉))).flatMap
        fun col =>
          (s.cells.getD (row * cols s.geom + col).toNat []).filter
            fun q => decide (p.distSq q.pos ≤ radius * radius)

/-- The entity re-inserted without moving in the C9 counterexample. -/
def eEnt : Ent := ⟨0, ⟨5, 5⟩⟩

def oGrid1 : OptGrid := insertO (emptyO ⟨100, 100, 10⟩) eEnt

def oGrid2 : OptGrid := insertO oGrid1 eEnt

theorem cols_hundred : cols (⟨100, 100, 10⟩ : GridGeom) = 10 := by
  unfold cols
  norm_num

theorem rows_hundred : rows (⟨100, 100, 10⟩ : GridGeom) = 10 := by
  unfold rows
  norm_num

theorem idx_five_five : getCellIndexO ⟨100, 100, 10⟩ 5 5 = 0 := by
  unfold getCellIndexO
  rw [cols_hundred]
  norm_num

theorem oGrid1_eval :
    oGrid1 = ⟨⟨100, 100, 10⟩, [eEnt] :: List.replicate 99 [], [(0, 0)], [(0, eEnt)]⟩ := by
  have h100 : List.replicate ((100 : ℤ)).toNat ([] : List Ent) = [] :: List.replicate 99 [] := rfl
  norm_num [oGrid1, insertO, insertCellsO, emptyO, lookupA, setA, eEnt, idx_five_five,
    cols_hundred, rows_hundred, h100]

theorem oGrid2_eval :
    oGrid2 = ⟨⟨100, 100, 10⟩, [eEnt, eEnt] :: List.replicate 99 [], [(0, 0)], [(0, eEnt)]⟩ := by
  unfold oGrid2
  rw [oGrid1_eval]
  norm_num [insertO, insertCellsO, lookupA, setA, eEnt, idx_five_five, Int.toNat_ofNat]

theorem oQuery_eval : queryRadiusO oGrid2 ⟨5, 5⟩ 1 = [eEnt, eEnt] := by
  rw [oGrid2_eval]
  have hflo : ⌊(5 : ℚ) / 10⌋ = 0 := by norm_num
  have hcei : ⌈(1 : ℚ) / 10⌉ = 1 := by norm_num [Int.ceil_eq_iff]
  have hrange : SpatialGrid.intRange 0 1 = [0, 1] := rfl
  have ht0 : ((0 : ℤ) * 10 + 0).toNat = 0 := rfl
  have ht1 : ((0 : ℤ) * 10 + 1).toNat = 1 := rfl
  have ht10 : ((1 : ℤ) * 10 + 0).toNat = 10 := rfl
  have ht11 : ((1 : ℤ) * 10 + 1).toNat = 11 := rfl
  have hga : ([eEnt, eEnt] :: List.replicate 99 ([] : List Ent))[(1 : ℕ)] = [] := rfl
  have hgb : ([eEnt, eEnt] :: List.replicate 99 ([] : List Ent))[(10 : ℕ)] = [] := rfl
  have hgc : ([eEnt, eEnt] :: List.replicate 99 ([] : List Ent))[(11 : ℕ)] = [] := rfl
  simp only [queryRadiusO, cols_hundred, rows_hundred, hflo, hcei]
  norm_num [hrange, List.flatMap_cons, List.flatMap_nil, ht0, ht1, ht10, ht11,
    Int.toNat_ofNat, hga, hgb, hgc, List.filter_cons, List.filter_nil, eEnt, Vec2.distSq]
  refine ⟨fun a ha => ?_, fun a ha => ?_⟩ <;> exact absurd ha (List.not_mem_nil _)

/-- Claim C9 (counterexample): in the cited `SpatialGridOptimized`,
`insert` pushes the entity into its cell array unconditionally (the old-cell
removal runs only when the cell changed), so re-inserting an already-tracked
entity whose position still maps to its current cell — the exact case the
claim names as idempotent — duplicates the record: the cell array holds the
entity twice and `queryRadius` returns it twice in a single query. -/
theorem optimized_grid_reinsert_duplicates :
    oGrid2 ≠ oGrid1 ∧
    queryRadiusO oGrid2 ⟨5, 5⟩ 1 = [eEnt, eEnt] ∧
    ¬ ((queryRadiusO oGrid2 ⟨5, 5⟩ 1).map Ent.id).Nodup := by
  refine ⟨?_, oQuery_eval, ?_⟩
  · rw [oGrid1_eval, oGrid2_eval]
    simp
  · rw [oQuery_eval]
    simp [eEnt]

end BiesSim
